import Mathlib

/-!
# RobloxHubX: the remote-process memory scanner and the bypass controller

A shallow embedding of `src/backup_files/memory_scanner.h` (class `MemoryScanner`) and of
`src/attached_assets/ServerValidationBypass_1762693796160.cpp` (the start/stop/status
controller), followed by the properties proved about them.

Conventions of the embedding

* `BYTE` is `Fin 256`; `uintptr_t`, `size_t` and `SIZE_T` are 64-bit: a difference or a sum of
  such values is reduced modulo `2 ^ 64` (`wrap64`).
* `NULL` is the handle `0`.
* A call that returns no value yields `none`: indexing a `std::vector` outside its bounds
  has no defined behaviour in the source, reading an address that cannot be read faults, and
  the construction of a scan buffer that cannot be allocated throws an exception that
  nothing in the source catches. The copy of the mask and the entries pushed onto the result
  vector are small next to the buffers; their allocations are taken to succeed.
* The platform services (`OpenProcess`, `ReadProcessMemory`, `VirtualProtectEx`, the module
  snapshot, `CreateThread`, ...) are not part of the repository; their outcomes are inputs of
  the embedded functions.
-/

namespace RobloxHubX

/-! ## Data model (memory_scanner.h, lines 17-32) -/

/-- One byte of remote memory (`BYTE`, an `unsigned char`). -/
abbrev BYTE := Fin 256

/-- Reduction of an integer to an unsigned 64-bit value (`uintptr_t`, `size_t`). -/
def wrap64 (z : Int) : Nat := (z % (2 : Int) ^ 64).toNat

/-- Pattern scanning result (`struct ScanResult`). -/
structure ScanResult where
  address : Nat
  bytes : List BYTE
deriving DecidableEq

/-- Memory region information (`struct MemoryRegion`); `end_` is the field `end`. -/
structure MemoryRegion where
  start : Nat
  end_ : Nat
  protection : Nat
  isExecutable : Bool
  isReadable : Bool
  isWritable : Bool
  moduleName : String
deriving DecidableEq

/-- The fields of `MODULEENTRY32` the scanner reads. -/
structure MODULEENTRY32 where
  szModule : String
  modBaseAddr : Nat
  modBaseSize : Nat
deriving DecidableEq

/-- The private members of `class MemoryScanner`; `m_processHandle = 0` is `NULL`. -/
structure MemoryScanner where
  m_processId : Nat
  m_processHandle : Nat
deriving DecidableEq

/-- What the platform gives during one scan: the regions that the `VirtualQueryEx` walk of
`GetMemoryRegions` enumerates, the module snapshot (`none` when `CreateToolhelp32Snapshot`
returns `INVALID_HANDLE_VALUE`), the outcome of `ReadProcessMemory address size` (`none`
when the call fails, otherwise the bytes read, whose number is `bytesRead`), and whether
the construction `std::vector<BYTE> buffer(n)` of a buffer of `n` bytes succeeds
(`allocate n = false` when it throws). -/
structure RemoteProcess where
  regions : List MemoryRegion
  snapshot : Option (List MODULEENTRY32)
  ReadProcessMemory : Nat → Nat → Option (List BYTE)
  allocate : Nat → Bool

/-! ## MemoryScanner::ReadMemory, GetMemoryRegions (lines 79-164) -/

/-- `GetMemoryRegions`: no region when the process is not open, otherwise the enumerated
regions. -/
def GetMemoryRegions (s : MemoryScanner) (os : RemoteProcess) : List MemoryRegion :=
  if s.m_processHandle = 0 then [] else os.regions

/-- `ReadMemory(address, buffer, size)`: fails when the process is not open, when
`ReadProcessMemory` fails, or when `bytesRead != size`; otherwise the buffer holds the bytes
read. -/
def ReadMemory (s : MemoryScanner) (os : RemoteProcess) (address size : Nat) :
    Option (List BYTE) :=
  if s.m_processHandle = 0 then none
  else
    match os.ReadProcessMemory address size with
    | none => none
    | some bytes => if bytes.length ≠ size then none else some bytes

/-! ## MemoryScanner::ScanPattern (lines 216-273) -/

/-- The effective mask: the mask itself, or `pattern.size()` bytes `0xFF` when it is empty
(lines 229-232 and 310-313). -/
def effectiveMask (pattern mask : List BYTE) : List BYTE :=
  if mask.isEmpty then List.replicate pattern.length 0xFF else mask

/-- The inner loop `for (j = 0; j < pattern.size(); j++)` (lines 256-261), entered at `j`
with `n` iterations left: `some true` when no position differs under the mask, `some false`
at the first difference (`break`), `none` when a vector is indexed outside its bounds. -/
def matchLoop (buffer pattern mask : List BYTE) (i : Nat) : Nat → Nat → Option Bool
  | _, 0 => some true
  | j, n + 1 =>
    match buffer[i + j]?, mask[j]?, pattern[j]? with
    | some b, some m, some p =>
      if (b &&& m) ≠ (p &&& m) then some false
      else matchLoop buffer pattern mask i (j + 1) n
    | _, _, _ => none

/-- The outer loop `for (i = 0; i <= buffer.size() - pattern.size(); i++)` (lines 253-269),
entered at `i` with `n` iterations left; `results` is the vector being filled. A match
appends `{base + i, buffer[i .. i + pattern.size())}`. -/
def scanLoop (base : Nat) (buffer pattern mask : List BYTE) :
    Nat → Nat → List ScanResult → Option (List ScanResult)
  | _, 0, results => some results
  | i, n + 1, results =>
    match matchLoop buffer pattern mask i 0 pattern.length with
    | none => none
    | some true =>
      scanLoop base buffer pattern mask (i + 1) n
        (results ++ [⟨wrap64 ((base : Int) + (i : Int)), (buffer.drop i).take pattern.length⟩])
    | some false => scanLoop base buffer pattern mask (i + 1) n results

/-- The scan of one buffer: the loop bound `buffer.size() - pattern.size()` is an unsigned
64-bit difference, and the loop runs for `i = 0, ..., bound`. -/
def scanBuffer (base : Nat) (buffer pattern mask : List BYTE) (results : List ScanResult) :
    Option (List ScanResult) :=
  scanLoop base buffer pattern mask 0
    (wrap64 ((buffer.length : Int) - (pattern.length : Int)) + 1) results

/-- The size `region.end - region.start` of a region, an unsigned 64-bit difference. -/
def regionSize (region : MemoryRegion) : Nat :=
  wrap64 ((region.end_ : Int) - (region.start : Int))

/-- The loop over the regions (lines 235-270). The buffer of `region.end - region.start`
bytes is constructed (line 247) before the read (line 248); when that construction throws,
the exception leaves the loop and `ScanPattern`, and no list is returned. -/
def scanRegions (s : MemoryScanner) (os : RemoteProcess) (pattern mask : List BYTE) :
    List MemoryRegion → List ScanResult → Option (List ScanResult)
  | [], results => some results
  | region :: rest, results =>
    if !region.isReadable then scanRegions s os pattern mask rest results
    else if regionSize region < pattern.length then scanRegions s os pattern mask rest results
    else if !os.allocate (regionSize region) then none
    else
      match ReadMemory s os region.start (regionSize region) with
      | none => scanRegions s os pattern mask rest results
      | some buffer =>
        match scanBuffer region.start buffer pattern mask results with
        | none => none
        | some results1 => scanRegions s os pattern mask rest results1

/-- `ScanPattern(pattern, mask)`: `some results` is the returned vector, `none` a run that
returns no vector: it indexes a vector outside its bounds, or the construction of a buffer
throws. -/
def ScanPattern (s : MemoryScanner) (os : RemoteProcess) (pattern mask : List BYTE) :
    Option (List ScanResult) :=
  if s.m_processHandle = 0 then some []
  else scanRegions s os pattern (effectiveMask pattern mask) (GetMemoryRegions s os) []

/-! ## Reference description of a masked match -/

/-- The masked pattern matches the buffer at offset `i`:
`(buffer[i+j] & mask[j]) == (pattern[j] & mask[j])` for all `j < |pattern|`. -/
def MatchesAt (buffer pattern mask : List BYTE) (i : Nat) : Prop :=
  ∀ j, j < pattern.length →
    (buffer.getD (i + j) 0 &&& mask.getD j 0) = (pattern.getD j 0 &&& mask.getD j 0)

instance (buffer pattern mask : List BYTE) (i : Nat) :
    Decidable (MatchesAt buffer pattern mask i) :=
  inferInstanceAs (Decidable (∀ j, j < pattern.length → _))

/-- The matches of the masked pattern in one buffer read at `start`: one entry for every
offset `i` with `i + |pattern| ≤ |buffer|` at which the masked pattern matches, in ascending
offset. -/
def matchesInBuffer (start : Nat) (buffer pattern mask : List BYTE) : List ScanResult :=
  ((List.range (buffer.length + 1)).filter
      (fun i => decide (i + pattern.length ≤ buffer.length ∧ MatchesAt buffer pattern mask i))).map
    (fun i => ⟨start + i, (buffer.drop i).take pattern.length⟩)

/-- The mask a caller means: all `0xFF` (exact match) when none is given. -/
def maskOrExact (pattern mask : List BYTE) : List BYTE :=
  if mask = [] then List.replicate pattern.length 255 else mask

/-- The matches of the masked pattern over a list of regions, in region order: a region
contributes when it is readable, has size at least `|pattern|` and is read successfully. -/
def matchesInRegions (s : MemoryScanner) (os : RemoteProcess) (pattern mask : List BYTE)
    (regions : List MemoryRegion) : List ScanResult :=
  (regions.map (fun r =>
    if r.isReadable = true ∧ pattern.length ≤ regionSize r then
      match ReadMemory s os r.start (regionSize r) with
      | some buffer => matchesInBuffer r.start buffer pattern (maskOrExact pattern mask)
      | none => []
    else [])).flatten

/-- A region lies in the 64-bit address space: `start ≤ end < 2 ^ 64`. -/
def MemoryRegion.inAddressSpace (r : MemoryRegion) : Prop :=
  r.start ≤ r.end_ ∧ r.end_ < 2 ^ 64

instance (r : MemoryRegion) : Decidable r.inAddressSpace :=
  inferInstanceAs (Decidable (_ ∧ _))

/-- The matches of one buffer with the address computed as the source does, as the unsigned
64-bit sum `base + i`. -/
def matchesInBuffer64 (base : Nat) (buffer pattern mask : List BYTE) : List ScanResult :=
  ((List.range (buffer.length + 1)).filter
      (fun i => decide (i + pattern.length ≤ buffer.length ∧ MatchesAt buffer pattern mask i))).map
    (fun (i : Nat) => ⟨wrap64 ((base : Int) + (i : Int)), (buffer.drop i).take pattern.length⟩)

/-- The matches over a list of regions with 64-bit addresses. -/
def matchesInRegions64 (s : MemoryScanner) (os : RemoteProcess) (pattern mask : List BYTE)
    (regions : List MemoryRegion) : List ScanResult :=
  (regions.map (fun r =>
    if r.isReadable = true ∧ pattern.length ≤ regionSize r then
      match ReadMemory s os r.start (regionSize r) with
      | some buffer => matchesInBuffer64 r.start buffer pattern (maskOrExact pattern mask)
      | none => []
    else [])).flatten

/-- Every buffer that the scan of `regions` constructs can be allocated: the buffer of each
readable region that is not smaller than the pattern. -/
def allocationsSucceed (os : RemoteProcess) (pattern : List BYTE)
    (regions : List MemoryRegion) : Bool :=
  regions.all (fun r =>
    !r.isReadable || decide (regionSize r < pattern.length) || os.allocate (regionSize r))

/-! ## MemoryScanner::ScanPatternInModule (lines 275-342) -/

/-- The characters of a string up to its first NUL, which is where the C string held in the
same bytes ends. -/
def cString (a : String) : List Char :=
  a.data.takeWhile (fun c => c != Char.ofNat 0)

/-- The test `_stricmp(a, b) == 0`: equality of the two C strings without regard to case. -/
def stricmpEq (a b : String) : Bool :=
  (cString a).map Char.toLower == (cString b).map Char.toLower

/-- The walk `Module32First` / `Module32Next` (lines 288-302): the first entry of the
snapshot whose name is `moduleName`, `none` when the snapshot is invalid or has no such
entry. -/
def findModule (os : RemoteProcess) (moduleName : String) : Option MODULEENTRY32 :=
  match os.snapshot with
  | none => none
  | some entries => entries.find? (fun e => stricmpEq e.szModule moduleName)

/-- `ScanPatternInModule(moduleName, pattern, mask)`: the buffer has `modBaseSize` bytes and
is scanned by the same two loops as in `ScanPattern`, with no test of the buffer size
against the pattern size before them. The buffer is constructed (line 316) before the read;
when that construction throws, no list is returned. -/
def ScanPatternInModule (s : MemoryScanner) (os : RemoteProcess) (moduleName : String)
    (pattern mask : List BYTE) : Option (List ScanResult) :=
  if s.m_processHandle = 0 then some []
  else
    match findModule os moduleName with
    | none => some []
    | some moduleEntry =>
      if !os.allocate moduleEntry.modBaseSize then none
      else
        match ReadMemory s os moduleEntry.modBaseAddr moduleEntry.modBaseSize with
        | none => some []
        | some buffer =>
          scanBuffer moduleEntry.modBaseAddr buffer pattern (effectiveMask pattern mask) []

/-! ## MemoryScanner::Open, Close (lines 46-77) -/

/-- `Close()`: the new members and the handles passed to `CloseHandle`. -/
def Close (s : MemoryScanner) : MemoryScanner × List Nat :=
  if s.m_processHandle ≠ 0 then ({ s with m_processHandle := 0 }, [s.m_processHandle])
  else (s, [])

/-- `Open(processId)`: the returned flag, the new members and the handles passed to
`CloseHandle`. `OpenProcess pid` is the handle the platform returns for `pid`, `0` (`NULL`)
when it fails. -/
def Open (OpenProcess : Nat → Nat) (s : MemoryScanner) (processId : Nat) :
    Bool × MemoryScanner × List Nat :=
  let s1 : MemoryScanner := if processId ≠ 0 then { s with m_processId := processId } else s
  if s1.m_processId = 0 then (false, s1, [])
  else
    let c := Close s1
    let s2 : MemoryScanner := { c.1 with m_processHandle := OpenProcess c.1.m_processId }
    if s2.m_processHandle = 0 then (false, s2, c.2)
    else (true, s2, c.2)

/-! ## MemoryScanner::WriteMemory (lines 183-214) -/

/-- The size of a page, the unit of memory protection. -/
def PAGE_SIZE : Nat := 4096

/-- The protection constant `PAGE_EXECUTE_READWRITE`. -/
def PAGE_EXECUTE_READWRITE : Nat := 0x40

/-- The remote memory: the byte at every address, and for every page (by index
`address / PAGE_SIZE`) its protection, `none` for a page that is not committed. -/
structure RemoteMemory where
  bytes : Nat → BYTE
  protect : Nat → Option Nat

/-- The first page of the range `[address, address + size)`. -/
def firstPage (address : Nat) : Nat := address / PAGE_SIZE

/-- The last page of the non-empty range `[address, address + size)`. -/
def lastPage (address size : Nat) : Nat := (address + size - 1) / PAGE_SIZE

/-- Model of the platform service `VirtualProtectEx(h, address, size, newProtect, &old)`:
it fails on an empty range and on a range with a page that is not committed; otherwise it
sets the protection of every page that holds a byte of the range to `newProtect` and
reports in `old` the previous protection of the first page of the range. -/
def VirtualProtectEx (m : RemoteMemory) (address size newProtect : Nat) :
    Option (RemoteMemory × Nat) :=
  if size = 0 then none
  else if (List.range (lastPage address size - firstPage address + 1)).all
      (fun k => (m.protect (firstPage address + k)).isSome) then
    match m.protect (firstPage address) with
    | none => none
    | some old =>
      some ({ m with protect := fun p =>
                if firstPage address ≤ p ∧ p ≤ lastPage address size then some newProtect
                else m.protect p }, old)
  else none

/-- The outcome of one call of the platform service `WriteProcessMemory`: its return value
and the number of bytes it reports in `bytesWritten`. -/
structure WriteOutcome where
  success : Bool
  bytesWritten : Nat
deriving DecidableEq

/-- Model of the effect of `WriteProcessMemory(h, address, buffer, size, &bytesWritten)` on
the remote memory: the first `bytesWritten` bytes of the buffer (at most all of them) are
stored from `address` on, every other byte is kept. -/
def WriteProcessMemory (m : RemoteMemory) (address : Nat) (buffer : List BYTE)
    (w : WriteOutcome) : RemoteMemory :=
  { m with bytes := fun a =>
      if address ≤ a ∧ a < address + min w.bytesWritten buffer.length then
        buffer.getD (a - address) 0
      else m.bytes a }

/-- The second call `VirtualProtectEx(h, address, size, oldProtect, &oldProtect)`, whose
return value the source does not test: the memory is the changed one when the call
succeeds and the same one when it fails. -/
def restoreProtection (m : RemoteMemory) (address size oldProtect : Nat) : RemoteMemory :=
  match VirtualProtectEx m address size oldProtect with
  | none => m
  | some r => r.1

/-- `WriteMemory(address, buffer, size)` with `size = buffer.length`: the returned flag and
the remote memory after the call. `w` is the outcome of the call of `WriteProcessMemory`.
`FlushInstructionCache` has no effect on the bytes or the protection. -/
def WriteMemory (s : MemoryScanner) (m : RemoteMemory) (w : WriteOutcome) (address : Nat)
    (buffer : List BYTE) : Bool × RemoteMemory :=
  if s.m_processHandle = 0 then (false, m)
  else
    match VirtualProtectEx m address buffer.length PAGE_EXECUTE_READWRITE with
    | none => (false, m)
    | some (m1, oldProtect) =>
      let m2 := WriteProcessMemory m1 address buffer w
      if !w.success || w.bytesWritten ≠ buffer.length then
        (false, restoreProtection m2 address buffer.length oldProtect)
      else
        (true, restoreProtection m2 address buffer.length oldProtect)

/-- The range `[address, address + size)` has the protection `p` on every one of its pages,
the pages `firstPage address + k` for `k ≤ lastPage address size - firstPage address`. -/
def RangeProtection (m : RemoteMemory) (address size p : Nat) : Prop :=
  ∀ k, k < lastPage address size - firstPage address + 1 →
    m.protect (firstPage address + k) = some p

instance (m : RemoteMemory) (address size p : Nat) :
    Decidable (RangeProtection m address size p) :=
  inferInstanceAs (Decidable (∀ k, k < lastPage address size - firstPage address + 1 → _))

/-! ## The bypass controller (ServerValidationBypass_1762693796160.cpp) -/

/-- The enumeration `ValidationBypassType`; a value of the type is an integer, which need
not be one of the five enumerators. -/
abbrev ValidationBypassType := Int

def BYPASS_ITEM_CHECK : ValidationBypassType := 0
def BYPASS_VALUE_RANGE : ValidationBypassType := 1
def BYPASS_OWNERSHIP_CHECK : ValidationBypassType := 2
def BYPASS_ANTI_TELEPORT : ValidationBypassType := 3
def BYPASS_COMPLETION_CHECK : ValidationBypassType := 4

/-- Memory locations of the routines (`struct ValidationAddresses`, lines 27-33). -/
structure ValidationAddresses where
  validateItemOwnership : Nat := 0
  validateItemProperties : Nat := 0
  validatePlayerPosition : Nat := 0
  validateTransaction : Nat := 0
  validateTaskCompletion : Nat := 0
deriving DecidableEq

/-- The 22 bytes of `ownershipPattern` (lines 79-82). -/
def ownershipPattern : List BYTE :=
  [0x48, 0x89, 0x5C, 0x24, 0x08, 0x48, 0x89, 0x74, 0x24, 0x10, 0x57, 0x48,
   0x83, 0xEC, 0x20, 0x48, 0x8B, 0xF1, 0x48, 0x8B, 0xDA, 0xE8]

/-- What the platform reports to `FindValidationFunctions`: the outcome of
`GetModuleHandleA` (`none` for a null handle), of `GetModuleInformation` (`lpBaseOfDll` and
`SizeOfImage`, `none` when it fails), and the byte `*(unsigned char*)a` at every address of
the own process (`none` where the address cannot be read). -/
structure LocalProcess where
  moduleHandle : Option Nat
  moduleInfo : Option (Nat × Nat)
  deref : Nat → Option BYTE

/-- The inner loop `for (i = 0; i < sizeof(ownershipPattern); i++)` (lines 90-95), entered
at `i` with `n` iterations left. -/
def inlineMatchLoop (deref : Nat → Option BYTE) (addr : Nat) : Nat → Nat → Option Bool
  | _, 0 => some true
  | i, n + 1 =>
    match deref (wrap64 ((addr : Int) + (i : Int))), ownershipPattern[i]? with
    | some b, some p =>
      if b ≠ p then some false else inlineMatchLoop deref addr (i + 1) n
    | _, _ => none

/-- The outer loop `for (addr = base; addr < limit; addr++)` (lines 85-102), entered at
`addr` with `n` iterations left: `some (some addr)` at the first match (`break`),
`some none` when the loop ends without one, `none` when an address cannot be read. -/
def inlineScanLoop (deref : Nat → Option BYTE) : Nat → Nat → Option (Option Nat)
  | _, 0 => some none
  | addr, n + 1 =>
    match inlineMatchLoop deref addr 0 ownershipPattern.length with
    | none => none
    | some true => some (some addr)
    | some false => inlineScanLoop deref (addr + 1) n

/-- The inline scan of `FindValidationFunctions`: `addr` runs from `lpBaseOfDll` while
`addr < lpBaseOfDll + SizeOfImage - sizeof(ownershipPattern)`, an unsigned 64-bit bound. -/
def inlineScan (deref : Nat → Option BYTE) (lpBaseOfDll SizeOfImage : Nat) :
    Option (Option Nat) :=
  inlineScanLoop deref lpBaseOfDll
    (wrap64 ((lpBaseOfDll : Int) + (SizeOfImage : Int) - (ownershipPattern.length : Int))
      - lpBaseOfDll)

/-- `FindValidationFunctions()` (lines 58-117): the returned flag and the new value of
`g_ValidationAddresses`; `none` when the scan reads an address that cannot be read. -/
def FindValidationFunctions (os : LocalProcess) (g : ValidationAddresses) :
    Option (Bool × ValidationAddresses) :=
  match os.moduleHandle with
  | none => some (false, g)
  | some _ =>
    match os.moduleInfo with
    | none => some (false, g)
    | some (lpBaseOfDll, SizeOfImage) =>
      match inlineScan os.deref lpBaseOfDll SizeOfImage with
      | none => none
      | some found =>
        let g1 := match found with
          | some addr => { g with validateItemOwnership := addr }
          | none => g
        let g2 := if g1.validateItemOwnership = 0 then
            { g1 with validateItemOwnership := wrap64 ((lpBaseOfDll : Int) + 0x1500000) }
          else g1
        let g3 := { g2 with
          validateItemProperties := wrap64 ((lpBaseOfDll : Int) + 0x1520000)
          validatePlayerPosition := wrap64 ((lpBaseOfDll : Int) + 0x1540000)
          validateTransaction := wrap64 ((lpBaseOfDll : Int) + 0x1560000)
          validateTaskCompletion := wrap64 ((lpBaseOfDll : Int) + 0x1580000) }
        some (g3.validateItemOwnership != 0, g3)

/-- The own process holding a module image `image` at `base`: the bytes of the image can be
read, no other address can. -/
def imageProcess (base : Nat) (image : List BYTE) : LocalProcess :=
  { moduleHandle := some base
    moduleInfo := some (base, image.length)
    deref := fun a => if base ≤ a then image[a - base]? else none }

/-- The region `[base, base + |image|)`, readable. -/
def imageAsRegion (base : Nat) (image : List BYTE) : MemoryRegion :=
  { start := base, end_ := base + image.length, protection := 0x20, isExecutable := true,
    isReadable := true, isWritable := false, moduleName := "" }

/-- The remote view of the same image as one readable region `[base, base + |image|)`. -/
def imageRegion (base : Nat) (image : List BYTE) : RemoteProcess :=
  { regions := [imageAsRegion base image]
    snapshot := none
    ReadProcessMemory := fun a n =>
      if a = base ∧ n = image.length then some image else none
    allocate := fun _ => true }

/-- The globals of the controller (lines 22-24) with a record of the platform calls made:
the threads created (handle and bypass type), the handles passed to `TerminateThread` and
to `CloseHandle`. `g_BypassThread = 0` is `NULL`. -/
structure Controller where
  g_BypassActive : Bool
  g_BypassThread : Nat
  created : List (Nat × ValidationBypassType)
  terminated : List Nat
  closed : List Nat
deriving DecidableEq

/-- `StartValidationBypass(bypassType)` (lines 212-235). `thread` is the handle that
`CreateThread` returns if it is called, `0` (`NULL`) when the creation fails. -/
def StartValidationBypass (thread : Nat) (bypassType : ValidationBypassType)
    (c : Controller) : Bool × Controller :=
  if c.g_BypassActive then (false, c)
  else
    let c1 := { c with
      g_BypassThread := thread
      created := if thread ≠ 0 then c.created ++ [(thread, bypassType)] else c.created }
    if c1.g_BypassThread = 0 then (false, c1)
    else (true, { c1 with g_BypassActive := true })

/-- `StopValidationBypass()` (lines 238-256). -/
def StopValidationBypass (c : Controller) : Bool × Controller :=
  if !c.g_BypassActive then (true, c)
  else
    let c1 := if c.g_BypassThread ≠ 0 then
        { c with
          terminated := c.terminated ++ [c.g_BypassThread]
          closed := c.closed ++ [c.g_BypassThread]
          g_BypassThread := 0 }
      else c
    (true, { c1 with g_BypassActive := false })

/-- `IsValidationBypassActive()` (lines 259-261). -/
def IsValidationBypassActive (c : Controller) : Bool := c.g_BypassActive

/-! ## PatchValidationFunction and ValidationBypassThread (lines 119-199) -/

/-- The six bytes of `patch` (lines 124-127). -/
def patch : List BYTE := [0xB8, 0x01, 0x00, 0x00, 0x00, 0xC3]

/-- The effect of `memcpy((void*)address, bytes, sizeof(bytes))` on the memory of the own
process: the bytes are stored from `address` on, every other byte is kept. -/
def memcpy (m : RemoteMemory) (address : Nat) (bytes : List BYTE) : RemoteMemory :=
  WriteProcessMemory m address bytes { success := true, bytesWritten := bytes.length }

/-- `PatchValidationFunction(address)` (lines 120-143) on the memory `m` of the own process:
the returned flag and the memory after the call. `VirtualProtect` is `VirtualProtectEx` on
the own process; the return value of the restoring call is not tested. -/
def PatchValidationFunction (m : RemoteMemory) (address : Nat) : Bool × RemoteMemory :=
  if address = 0 then (false, m)
  else
    match VirtualProtectEx m address patch.length PAGE_EXECUTE_READWRITE with
    | some (m1, oldProtect) =>
      (true, restoreProtection (memcpy m1 address patch) address patch.length oldProtect)
    | none => (false, m)

/-- What the worker thread reads and writes: the flag `g_BypassActive`, the addresses
`g_ValidationAddresses`, the memory of the own process, and a record of the calls made: the
address and the returned flag of every call of `PatchValidationFunction`, in order, and the
number of calls of `FindValidationFunctions`. -/
structure BypassWorld where
  g_BypassActive : Bool
  g_ValidationAddresses : ValidationAddresses
  memory : RemoteMemory
  patchCalls : List (Nat × Bool)
  findCalls : Nat

/-- One call `PatchValidationFunction(address)` by the worker, recorded in `patchCalls`. -/
def patchCall (w : BypassWorld) (address : Nat) : Bool × BypassWorld :=
  ((PatchValidationFunction w.memory address).1,
    { w with
      memory := (PatchValidationFunction w.memory address).2
      patchCalls := w.patchCalls ++ [(address, (PatchValidationFunction w.memory address).1)] })

/-- The `switch (bypassType)` of `ValidationBypassThread` (lines 162-189): the value of
`success` after it and the world after the calls. In the first case `success &= ...` makes
the second call whatever the first returned. -/
def applyBypass (bypassType : ValidationBypassType) (w : BypassWorld) : Bool × BypassWorld :=
  if bypassType = BYPASS_ITEM_CHECK then
    let r1 := patchCall w w.g_ValidationAddresses.validateItemOwnership
    let r2 := patchCall r1.2 r1.2.g_ValidationAddresses.validateItemProperties
    (r1.1 && r2.1, r2.2)
  else if bypassType = BYPASS_VALUE_RANGE then
    patchCall w w.g_ValidationAddresses.validateTransaction
  else if bypassType = BYPASS_OWNERSHIP_CHECK then
    patchCall w w.g_ValidationAddresses.validateItemOwnership
  else if bypassType = BYPASS_ANTI_TELEPORT then
    patchCall w w.g_ValidationAddresses.validatePlayerPosition
  else if bypassType = BYPASS_COMPLETION_CHECK then
    patchCall w w.g_ValidationAddresses.validateTaskCompletion
  else (false, w)

/-- The end of `ValidationBypassThread` (lines 161-198): the switch, then
`g_BypassActive = false` and `return success ? 0 : 1`. -/
def finishBypass (bypassType : ValidationBypassType) (w : BypassWorld) : Nat × BypassWorld :=
  ((if (applyBypass bypassType w).1 then 0 else 1),
    { (applyBypass bypassType w).2 with g_BypassActive := false })

/-- `ValidationBypassThread(param)` (lines 146-199) with `*param = bypassType`: the exit
code and the world when it returns; `none` when the scan of `FindValidationFunctions` reads
an address that cannot be read. -/
def ValidationBypassThread (os : LocalProcess) (bypassType : ValidationBypassType)
    (w : BypassWorld) : Option (Nat × BypassWorld) :=
  if w.g_ValidationAddresses.validateItemOwnership = 0 then
    match FindValidationFunctions os w.g_ValidationAddresses with
    | none => none
    | some (found, g1) =>
      if !found then
        some (1, { w with
          g_ValidationAddresses := g1, findCalls := w.findCalls + 1,
          g_BypassActive := false })
      else
        some (finishBypass bypassType
          { w with g_ValidationAddresses := g1, findCalls := w.findCalls + 1 })
  else some (finishBypass bypassType w)

/-- The addresses that the requested type has patched, in the order of the calls: two for
`BYPASS_ITEM_CHECK`, one for each of the other four enumerators, none for another value. -/
def patchTargets (bypassType : ValidationBypassType) (g : ValidationAddresses) : List Nat :=
  if bypassType = BYPASS_ITEM_CHECK then [g.validateItemOwnership, g.validateItemProperties]
  else if bypassType = BYPASS_VALUE_RANGE then [g.validateTransaction]
  else if bypassType = BYPASS_OWNERSHIP_CHECK then [g.validateItemOwnership]
  else if bypassType = BYPASS_ANTI_TELEPORT then [g.validatePlayerPosition]
  else if bypassType = BYPASS_COMPLETION_CHECK then [g.validateTaskCompletion]
  else []

/-- The value is one of the five enumerators of `ValidationBypassType`. -/
def isEnumerator (bypassType : ValidationBypassType) : Prop :=
  bypassType = BYPASS_ITEM_CHECK ∨ bypassType = BYPASS_VALUE_RANGE ∨
  bypassType = BYPASS_OWNERSHIP_CHECK ∨ bypassType = BYPASS_ANTI_TELEPORT ∨
  bypassType = BYPASS_COMPLETION_CHECK

instance (bypassType : ValidationBypassType) : Decidable (isEnumerator bypassType) :=
  inferInstanceAs (Decidable (_ ∨ _ ∨ _ ∨ _ ∨ _))

/-- The bytes of a memory in which `data` has been stored from `address` on. -/
def writeAt (bytes : Nat → BYTE) (address : Nat) (data : List BYTE) : Nat → BYTE :=
  fun a => if address ≤ a ∧ a < address + data.length then data.getD (a - address) 0
    else bytes a

/-- The bytes of a memory after a sequence of calls of `PatchValidationFunction`, given with
their addresses and returned flags: every call that returned true has stored the six bytes
of `patch` at its address, in the order of the calls; a call that returned false has
stored nothing. -/
def applyPatches (bytes : Nat → BYTE) (calls : List (Nat × Bool)) : Nat → BYTE :=
  calls.foldl (fun b c => if c.2 then writeAt b c.1 patch else b) bytes

/-- The worker went from the world `w`, with the addresses `g` in force at the switch, to
the world `w1` with exit code `code`, as the requested type asks: `g_BypassActive` is false;
the calls of `PatchValidationFunction` made are those of `patchTargets`, all of them, in
order; the bytes of the memory are those of `w` with the six bytes of `patch` stored at
the address of every call that returned true; the exit code is 0 or 1, and it is 0 if and
only if the type is an enumerator and every one of those calls returned true. -/
def WorkerOutcome (bypassType : ValidationBypassType) (g : ValidationAddresses)
    (w w1 : BypassWorld) (code : Nat) : Prop :=
  w1.g_BypassActive = false ∧
  ∃ calls : List (Nat × Bool),
    w1.patchCalls = w.patchCalls ++ calls ∧
    calls.map Prod.fst = patchTargets bypassType g ∧
    w1.memory.bytes = applyPatches w.memory.bytes calls ∧
    (code = 0 ∨ code = 1) ∧
    (code = 0 ↔ isEnumerator bypassType ∧ ∀ c ∈ calls, c.2 = true)

/-! ## ScanPattern region by region -/

/-- The same process with another list of enumerated regions. -/
def withRegions (os : RemoteProcess) (regions : List MemoryRegion) : RemoteProcess :=
  { os with regions := regions }

/-- The concatenation of the results of a sequence of scans, in order; a scan that indexes
a vector outside its bounds (`none`) makes the whole run `none`. -/
def concatScans : List (Option (List ScanResult)) → Option (List ScanResult)
  | [] => some []
  | none :: _ => none
  | some results :: rest =>
    match concatScans rest with
    | none => none
    | some more => some (results ++ more)

/-- A region that `ScanPattern` skips: not readable, smaller than the pattern, or one whose
buffer is allocated and whose read then fails. -/
def SkippedRegion (s : MemoryScanner) (os : RemoteProcess) (pattern : List BYTE)
    (r : MemoryRegion) : Prop :=
  r.isReadable = false ∨ regionSize r < pattern.length ∨
    (os.allocate (regionSize r) = true ∧ ReadMemory s os r.start (regionSize r) = none)

/-- A region that is readable and whose read fails, whether or not the read is reached. -/
def ReadFails (s : MemoryScanner) (os : RemoteProcess) (r : MemoryRegion) : Prop :=
  r.isReadable = true ∧ ReadMemory s os r.start (regionSize r) = none

/-! ## Start and worker as interleaved steps -/

/-- The controller together with the threads around it: whether a call of
`StartValidationBypass` has created its thread and not yet stored the flag (it holds
`g_ValidationMutex` meanwhile), the number of worker threads created and still at work, and
the number of worker threads that have returned. -/
structure BypassSystem where
  controller : Controller
  startInProgress : Bool
  working : Nat
  finished : Nat
deriving DecidableEq

/-- The atomic steps. `startCreate thread bypassType` is the first part of
`StartValidationBypass` (lines 213-229): the lock, the test of `g_BypassActive` and
`CreateThread`, which returns `thread`. `startStore` is its second part (lines 231-234):
`g_BypassActive = true` and the return. `workerReturn` is `ValidationBypassThread` from its
work to its return (lines 191-198), with `g_BypassActive = false`. -/
inductive Step where
  | startCreate (thread : Nat) (bypassType : ValidationBypassType)
  | startStore
  | workerReturn
deriving DecidableEq

/-- One step of the system; `none` when the step cannot be taken in the state. -/
def step (e : Step) (st : BypassSystem) : Option BypassSystem :=
  match e with
  | Step.startCreate thread bypassType =>
    if st.startInProgress then none
    else if st.controller.g_BypassActive then some st
    else
      let c1 : Controller := { st.controller with
        g_BypassThread := thread
        created := if thread ≠ 0 then st.controller.created ++ [(thread, bypassType)]
          else st.controller.created }
      if c1.g_BypassThread = 0 then some { st with controller := c1 }
      else some { st with controller := c1, startInProgress := true,
                          working := st.working + 1 }
  | Step.startStore =>
    if st.startInProgress then
      some { st with
        controller := { st.controller with g_BypassActive := true }
        startInProgress := false }
    else none
  | Step.workerReturn =>
    if st.working = 0 then none
    else
      some { st with
        controller := { st.controller with g_BypassActive := false }
        working := st.working - 1
        finished := st.finished + 1 }

/-- The state after a sequence of steps, `none` when one of them cannot be taken. -/
def run : List Step → BypassSystem → Option BypassSystem
  | [], st => some st
  | e :: rest, st =>
    match step e st with
    | none => none
    | some st1 => run rest st1

/-- The system before any call: the controller idle, no thread. -/
def initialSystem : BypassSystem :=
  { controller := { g_BypassActive := false, g_BypassThread := 0, created := [],
                    terminated := [], closed := [] }
    startInProgress := false, working := 0, finished := 0 }

/-- A state reached from `initialSystem` by some sequence of steps. -/
def Reachable (st : BypassSystem) : Prop :=
  ∃ steps : List Step, run steps initialSystem = some st

/-- The interleaving in which the worker returns between the two parts of the call that
created it. -/
def racingSteps : List Step :=
  [Step.startCreate 0x77 BYPASS_ITEM_CHECK, Step.workerReturn, Step.startStore]

/-! ## Example inputs -/

/-- An open scanner. -/
def exampleScanner : MemoryScanner := { m_processId := 4242, m_processHandle := 0x1A4 }

/-- A process with five regions, of which the second is not readable, the third is shorter
than a two-byte pattern and the fourth cannot be read, and with two modules; a buffer of up
to 4 GiB can be allocated. -/
def exampleProcess : RemoteProcess :=
  { regions :=
      [{ start := 0x1000, end_ := 0x1005, protection := 0x20, isExecutable := true,
         isReadable := true, isWritable := false, moduleName := "a.dll" },
       { start := 0x2000, end_ := 0x2003, protection := 0x01, isExecutable := false,
         isReadable := false, isWritable := false, moduleName := "" },
       { start := 0x3000, end_ := 0x3001, protection := 0x02, isExecutable := false,
         isReadable := true, isWritable := false, moduleName := "" },
       { start := 0x4000, end_ := 0x4004, protection := 0x02, isExecutable := false,
         isReadable := true, isWritable := false, moduleName := "" },
       { start := 0x5000, end_ := 0x5003, protection := 0x04, isExecutable := false,
         isReadable := true, isWritable := true, moduleName := "B.DLL" }]
    snapshot := some [{ szModule := "a.dll", modBaseAddr := 0x1000, modBaseSize := 5 },
                      { szModule := "B.DLL", modBaseAddr := 0x5000, modBaseSize := 3 }]
    ReadProcessMemory := fun a n =>
      if a = 0x1000 ∧ n = 5 then some [1, 2, 3, 1, 2]
      else if a = 0x3000 ∧ n = 1 then some [1]
      else if a = 0x5000 ∧ n = 3 then some [9, 1, 3]
      else none
    allocate := fun n => decide (n ≤ 0x100000000) }

/-- A process with one module whose image is one page of zero bytes. -/
def onePageProcess : RemoteProcess :=
  { regions := []
    snapshot := some [{ szModule := "Target.exe", modBaseAddr := 0x400000,
                        modBaseSize := 4096 }]
    ReadProcessMemory := fun a n =>
      if a = 0x400000 ∧ n = 4096 then some (List.replicate 4096 0) else none
    allocate := fun n => decide (n ≤ 0x100000000) }

/-- A remote memory with two committed pages: page 1 (`0x1000 .. 0x1FFF`) with protection
`PAGE_EXECUTE_READ` (`0x20`) and page 2 (`0x2000 .. 0x2FFF`) with `PAGE_READONLY`
(`0x02`); every byte is zero. -/
def twoPageMemory : RemoteMemory :=
  { bytes := fun _ => 0
    protect := fun q => if q = 1 then some 0x20 else if q = 2 then some 0x02 else none }

/-- A controller in which a bypass is active on the thread with handle `0x77`. -/
def activeController : Controller :=
  { g_BypassActive := true, g_BypassThread := 0x77,
    created := [(0x77, BYPASS_ITEM_CHECK)], terminated := [], closed := [] }

/-- The controller before any call. -/
def idleController : Controller :=
  { g_BypassActive := false, g_BypassThread := 0, created := [], terminated := [],
    closed := [] }


/-- A world of the worker with the addresses already found: the first two lie in page 1 and
page 2 of `twoPageMemory`, the third in a page that is not committed. -/
def exampleWorld : BypassWorld :=
  { g_BypassActive := true
    g_ValidationAddresses :=
      { validateItemOwnership := 0x1100, validateItemProperties := 0x5000,
        validatePlayerPosition := 0x2100, validateTransaction := 0x2200,
        validateTaskCompletion := 0x2300 }
    memory := twoPageMemory
    patchCalls := []
    findCalls := 0 }

/-- A world of the worker before the addresses are found. -/
def freshWorld : BypassWorld :=
  { g_BypassActive := true, g_ValidationAddresses := {}, memory := twoPageMemory,
    patchCalls := [], findCalls := 0 }

/-- An own process in which the module is not loaded: `GetModuleHandleA` returns `NULL`. -/
def noModuleProcess : LocalProcess :=
  { moduleHandle := none, moduleInfo := none, deref := fun _ => none }

/-- An own process whose module image has two pages, of which the second cannot be read;
the first holds zero bytes. -/
def holeProcess : LocalProcess :=
  { moduleHandle := some 0x10000
    moduleInfo := some (0x10000, 8192)
    deref := fun a => if 0x10000 ≤ a ∧ a < 0x11000 then some 0 else none }

/-- A region that is not readable. -/
def unreadableRegion : MemoryRegion :=
  { start := 0x7000, end_ := 0x7010, protection := 0x01, isExecutable := false,
    isReadable := false, isWritable := false, moduleName := "" }

/-- A readable region of 1 TiB. -/
def hugeRegion : MemoryRegion :=
  { start := 0x10000000000, end_ := 0x20000000000, protection := 0x02,
    isExecutable := false, isReadable := true, isWritable := false, moduleName := "" }

/-- The process `exampleProcess` with `hugeRegion` after its five regions. The buffer of the
new region (1 TiB) is over what can be allocated (4 GiB), and a read of it would fail. -/
def hugeProcess : RemoteProcess :=
  withRegions exampleProcess (exampleProcess.regions ++ [hugeRegion])

/-! # Theorems -/

/-! ## Lemmas on 64-bit arithmetic and bytes -/

theorem wrap64_of_lt {n : Nat} (h : n < 2 ^ 64) : wrap64 (n : Int) = n := by
  unfold wrap64
  have h1 : ((n : Int) % (2 : Int) ^ 64) = (n : Int) := by
    apply Int.emod_eq_of_lt (by positivity)
    exact_mod_cast h
  rw [h1]; simp

theorem wrap64_add_of_lt {a b : Nat} (h : a + b < 2 ^ 64) :
    wrap64 ((a : Int) + (b : Int)) = a + b := by
  have h1 : ((a : Int) + (b : Int)) = ((a + b : Nat) : Int) := by push_cast; rfl
  rw [h1, wrap64_of_lt h]

theorem wrap64_sub_of_le {a b : Nat} (hab : b ≤ a) (ha : a < 2 ^ 64) :
    wrap64 ((a : Int) - (b : Int)) = a - b := by
  have : ((a : Int) - (b : Int)) = ((a - b : Nat) : Int) := by omega
  rw [this]
  exact wrap64_of_lt (by omega)

theorem wrap64_lt (z : Int) : wrap64 z < 2 ^ 64 := by
  unfold wrap64
  have h1 : 0 ≤ z % (2 : Int) ^ 64 := Int.emod_nonneg _ (by positivity)
  have h2 : z % (2 : Int) ^ 64 < (2 : Int) ^ 64 := Int.emod_lt_of_pos _ (by positivity)
  omega

set_option maxRecDepth 100000 in
theorem byte_and_zero : ∀ x : BYTE, x &&& 0 = 0 := by decide

set_option maxRecDepth 100000 in
theorem byte_and_ff : ∀ x : BYTE, x &&& 255 = x := by decide

/-! ## Lemmas on the scan loops -/

theorem matchLoop_eq (buffer pattern mask : List BYTE) (i : Nat)
    (hb : i + pattern.length ≤ buffer.length) (hm : pattern.length ≤ mask.length) :
    ∀ n j, j + n = pattern.length →
      matchLoop buffer pattern mask i j n =
        some (decide (∀ k, j ≤ k → k < pattern.length →
          (buffer.getD (i + k) 0 &&& mask.getD k 0) = (pattern.getD k 0 &&& mask.getD k 0))) := by
  intro n
  induction n with
  | zero =>
    intro j hj
    have : ∀ k, j ≤ k → k < pattern.length →
        (buffer.getD (i + k) 0 &&& mask.getD k 0) = (pattern.getD k 0 &&& mask.getD k 0) := by
      intro k h1 h2; omega
    rw [matchLoop, decide_eq_true this]
  | succ n ih =>
    intro j hj
    have h1 : i + j < buffer.length := by omega
    have h2 : j < mask.length := by omega
    have h3 : j < pattern.length := by omega
    rw [matchLoop]
    rw [List.getElem?_eq_getElem h1, List.getElem?_eq_getElem h2, List.getElem?_eq_getElem h3]
    simp only []
    by_cases hne : (buffer[i + j] &&& mask[j]) ≠ (pattern[j] &&& mask[j])
    · rw [if_pos hne]
      congr 1
      symm
      rw [decide_eq_false_iff_not]
      intro hall
      have := hall j (le_refl _) h3
      rw [List.getD_eq_getElem _ _ h1, List.getD_eq_getElem _ _ h2,
        List.getD_eq_getElem _ _ h3] at this
      exact hne this
    · rw [if_neg hne, ih (j + 1) (by omega)]
      congr 1
      rw [decide_eq_decide]
      push_neg at hne
      constructor
      · intro hall k hk1 hk2
        rcases Nat.eq_or_lt_of_le hk1 with rfl | hlt
        · rw [List.getD_eq_getElem _ _ h1, List.getD_eq_getElem _ _ h2,
            List.getD_eq_getElem _ _ h3]
          exact hne
        · exact hall k hlt hk2
      · intro hall k hk1 hk2
        exact hall k (by omega) hk2

theorem matchLoop_eq_matchesAt (buffer pattern mask : List BYTE) (i : Nat)
    (hb : i + pattern.length ≤ buffer.length) (hm : pattern.length ≤ mask.length) :
    matchLoop buffer pattern mask i 0 pattern.length =
      some (decide (MatchesAt buffer pattern mask i)) := by
  rw [matchLoop_eq buffer pattern mask i hb hm pattern.length 0 (by omega)]
  congr 1
  rw [decide_eq_decide]
  unfold MatchesAt
  constructor
  · intro h j hj; exact h j (Nat.zero_le _) hj
  · intro h j _ hj; exact h j hj

theorem scanLoop_eq (base : Nat) (buffer pattern mask : List BYTE)
    (hm : pattern.length ≤ mask.length) (hp : pattern.length ≤ buffer.length) :
    ∀ n i results, i + n ≤ buffer.length - pattern.length + 1 →
      scanLoop base buffer pattern mask i n results =
        some (results ++ ((List.range' i n).filter
          (fun k => decide (MatchesAt buffer pattern mask k))).map
          (fun (k : Nat) =>
            ⟨wrap64 ((base : Int) + (k : Int)), (buffer.drop k).take pattern.length⟩)) := by
  intro n
  induction n with
  | zero => intro i results _; simp [scanLoop]
  | succ n ih =>
    intro i results hi
    rw [scanLoop, matchLoop_eq_matchesAt buffer pattern mask i (by omega) hm]
    by_cases hmatch : MatchesAt buffer pattern mask i
    · simp only [decide_eq_true hmatch]
      rw [ih (i + 1) _ (by omega)]
      simp [List.range'_succ, List.filter_cons, hmatch]
    · simp only [decide_eq_false hmatch]
      rw [ih (i + 1) _ (by omega)]
      simp [List.range'_succ, List.filter_cons, hmatch]

theorem filter_range_fits (b p : Nat) (hp : p ≤ b) (P : Nat → Prop) [DecidablePred P] :
    (List.range (b + 1)).filter (fun i => decide (i + p ≤ b ∧ P i)) =
      (List.range' 0 (b - p + 1)).filter (fun i => decide (P i)) := by
  have hsplit : List.range (b + 1) = List.range' 0 (b - p + 1) ++ List.range' (b - p + 1) p := by
    have h0 : List.range' (b - p + 1) p = List.range' (0 + (b - p + 1)) p := by rw [Nat.zero_add]
    rw [List.range_eq_range', h0, List.range'_append_1]
    congr 1; omega
  rw [hsplit, List.filter_append]
  have h2 : (List.range' (b - p + 1) p).filter (fun i => decide (i + p ≤ b ∧ P i)) = [] := by
    rw [List.filter_eq_nil_iff]
    intro i hi
    rw [List.mem_range'_1] at hi
    simp only [decide_eq_true_eq, not_and]
    intro h; omega
  rw [h2, List.append_nil]
  apply List.filter_congr
  intro i hi
  rw [List.mem_range'_1] at hi
  have : i + p ≤ b := by omega
  simp [this]

theorem scanBuffer_eq64 (base : Nat) (buffer pattern mask : List BYTE)
    (results : List ScanResult)
    (hm : pattern.length ≤ mask.length) (hp : pattern.length ≤ buffer.length)
    (hb : buffer.length < 2 ^ 64) :
    scanBuffer base buffer pattern mask results =
      some (results ++ matchesInBuffer64 base buffer pattern mask) := by
  unfold scanBuffer
  rw [wrap64_sub_of_le hp hb, scanLoop_eq base buffer pattern mask hm hp _ 0 results (by omega)]
  unfold matchesInBuffer64
  rw [filter_range_fits buffer.length pattern.length hp]

theorem matchesInBuffer64_eq (base : Nat) (buffer pattern mask : List BYTE)
    (hb : base + buffer.length < 2 ^ 64) :
    matchesInBuffer64 base buffer pattern mask = matchesInBuffer base buffer pattern mask := by
  unfold matchesInBuffer64 matchesInBuffer
  apply List.map_congr_left
  intro i hi
  rw [List.mem_filter, List.mem_range] at hi
  rw [wrap64_add_of_lt (by omega)]

theorem ReadMemory_length {s : MemoryScanner} {os : RemoteProcess} {address size : Nat}
    {buffer : List BYTE} (h : ReadMemory s os address size = some buffer) :
    buffer.length = size := by
  unfold ReadMemory at h
  split at h
  · simp at h
  · split at h
    · simp at h
    · split at h
      · simp at h
      · rename_i hlen
        simp only [Option.some.injEq] at h
        subst h
        simpa using hlen

theorem effectiveMask_eq_maskOrExact (pattern mask : List BYTE) :
    effectiveMask pattern mask = maskOrExact pattern mask := by
  unfold effectiveMask maskOrExact
  cases mask <;> simp

theorem effectiveMask_length {pattern mask : List BYTE}
    (hmask : mask = [] ∨ pattern.length ≤ mask.length) :
    pattern.length ≤ (effectiveMask pattern mask).length := by
  unfold effectiveMask
  cases mask with
  | nil => simp
  | cons m ms =>
    rcases hmask with h | h
    · simp at h
    · simpa using h

theorem regionSize_of_inAddressSpace {r : MemoryRegion} (h : r.inAddressSpace) :
    regionSize r = r.end_ - r.start ∧ r.start + regionSize r < 2 ^ 64 := by
  obtain ⟨h1, h2⟩ := h
  unfold regionSize
  rw [wrap64_sub_of_le h1 h2]
  constructor
  · rfl
  · omega

theorem matchesInRegions64_cons (s : MemoryScanner) (os : RemoteProcess)
    (pattern mask : List BYTE) (r : MemoryRegion) (rest : List MemoryRegion) :
    matchesInRegions64 s os pattern mask (r :: rest) =
      (if r.isReadable = true ∧ pattern.length ≤ regionSize r then
        match ReadMemory s os r.start (regionSize r) with
        | some buffer => matchesInBuffer64 r.start buffer pattern (maskOrExact pattern mask)
        | none => []
      else []) ++ matchesInRegions64 s os pattern mask rest := by
  simp [matchesInRegions64]

theorem matchesInRegions_cons (s : MemoryScanner) (os : RemoteProcess)
    (pattern mask : List BYTE) (r : MemoryRegion) (rest : List MemoryRegion) :
    matchesInRegions s os pattern mask (r :: rest) =
      (if r.isReadable = true ∧ pattern.length ≤ regionSize r then
        match ReadMemory s os r.start (regionSize r) with
        | some buffer => matchesInBuffer r.start buffer pattern (maskOrExact pattern mask)
        | none => []
      else []) ++ matchesInRegions s os pattern mask rest := by
  simp [matchesInRegions]

theorem allocationsSucceed_cons (os : RemoteProcess) (pattern : List BYTE) (r : MemoryRegion)
    (rest : List MemoryRegion) :
    allocationsSucceed os pattern (r :: rest) =
      ((!r.isReadable || decide (regionSize r < pattern.length) ||
        os.allocate (regionSize r)) && allocationsSucceed os pattern rest) := by
  simp [allocationsSucceed]

theorem scanRegions_eq64 (s : MemoryScanner) (os : RemoteProcess) (pattern mask : List BYTE)
    (hmask : mask = [] ∨ pattern.length ≤ mask.length) :
    ∀ (regions : List MemoryRegion) (results : List ScanResult),
      scanRegions s os pattern (effectiveMask pattern mask) regions results =
        if allocationsSucceed os pattern regions = true then
          some (results ++ matchesInRegions64 s os pattern mask regions)
        else none := by
  intro regions
  induction regions with
  | nil => intro results; simp [scanRegions, matchesInRegions64, allocationsSucceed]
  | cons r rest ih =>
    intro results
    rw [scanRegions, matchesInRegions64_cons, allocationsSucceed_cons]
    by_cases hread : r.isReadable = true
    · by_cases hsize : regionSize r < pattern.length
      · simp [hread, hsize, ih results, Nat.not_le.mpr hsize]
      · have hle : pattern.length ≤ regionSize r := Nat.not_lt.mp hsize
        by_cases halloc : os.allocate (regionSize r) = true
        · simp only [hread, hsize, hle, halloc, Bool.not_true, Bool.false_eq_true, if_false,
            and_self, if_true, decide_False, Bool.or_self, Bool.false_or, Bool.true_and]
          cases hrm : ReadMemory s os r.start (regionSize r) with
          | none => simp [ih results]
          | some buffer =>
            have hlen := ReadMemory_length hrm
            have hlt : regionSize r < 2 ^ 64 := wrap64_lt _
            simp only []
            rw [scanBuffer_eq64 r.start buffer pattern (effectiveMask pattern mask) results
              (effectiveMask_length hmask) (by omega) (by omega)]
            simp only []
            rw [ih _, effectiveMask_eq_maskOrExact, List.append_assoc]
        · simp [hread, hsize, halloc]
    · simp [hread, ih results]

theorem matchesInRegions64_eq (s : MemoryScanner) (os : RemoteProcess)
    (pattern mask : List BYTE) :
    ∀ regions : List MemoryRegion, (∀ r ∈ regions, r.inAddressSpace) →
      matchesInRegions64 s os pattern mask regions =
        matchesInRegions s os pattern mask regions := by
  intro regions
  induction regions with
  | nil => intro _; rfl
  | cons r rest ih =>
    intro hwf
    have hr := regionSize_of_inAddressSpace (hwf r (List.mem_cons_self _ _))
    rw [matchesInRegions64_cons, matchesInRegions_cons,
      ih (fun x hx => hwf x (List.mem_cons_of_mem _ hx))]
    congr 1
    split
    · cases hrm : ReadMemory s os r.start (regionSize r) with
      | none => rfl
      | some buffer =>
        have hlen := ReadMemory_length hrm
        simp only []
        exact matchesInBuffer64_eq _ _ _ _ (by omega)
    · rfl

theorem ScanPattern_eq64_or_none (s : MemoryScanner) (os : RemoteProcess)
    (pattern mask : List BYTE) (hmask : mask = [] ∨ pattern.length ≤ mask.length) :
    ScanPattern s os pattern mask =
      if allocationsSucceed os pattern (GetMemoryRegions s os) = true then
        some (matchesInRegions64 s os pattern mask (GetMemoryRegions s os))
      else none := by
  unfold ScanPattern
  split
  · rename_i h
    simp [GetMemoryRegions, h, matchesInRegions64, allocationsSucceed]
  · rw [scanRegions_eq64 s os pattern mask hmask]
    simp

theorem ScanPattern_eq64 (s : MemoryScanner) (os : RemoteProcess) (pattern mask : List BYTE)
    (hmask : mask = [] ∨ pattern.length ≤ mask.length)
    (halloc : allocationsSucceed os pattern (GetMemoryRegions s os) = true) :
    ScanPattern s os pattern mask =
      some (matchesInRegions64 s os pattern mask (GetMemoryRegions s os)) := by
  rw [ScanPattern_eq64_or_none s os pattern mask hmask, if_pos halloc]

theorem ScanPattern_eq_some (s : MemoryScanner) (os : RemoteProcess) (pattern mask : List BYTE)
    (hmask : mask = [] ∨ pattern.length ≤ mask.length) (results : List ScanResult)
    (h : ScanPattern s os pattern mask = some results) :
    results = matchesInRegions64 s os pattern mask (GetMemoryRegions s os) := by
  rw [ScanPattern_eq64_or_none s os pattern mask hmask] at h
  split at h
  · simpa using h.symm
  · simp at h

theorem allocationsSucceed_GetMemoryRegions (s : MemoryScanner) (os : RemoteProcess)
    (pattern : List BYTE) (h : allocationsSucceed os pattern os.regions = true) :
    allocationsSucceed os pattern (GetMemoryRegions s os) = true := by
  unfold GetMemoryRegions
  split
  · rfl
  · exact h

/-! ## Lemmas on wildcard positions and exact masks -/

theorem matchLoop_set (buffer pattern mask : List BYTE) (i j : Nat) (v : BYTE)
    (hzero : mask[j]? = some 0) :
    ∀ n k, matchLoop buffer (pattern.set j v) mask i k n =
      matchLoop buffer pattern mask i k n := by
  intro n
  induction n with
  | zero => intro k; rfl
  | succ n ih =>
    intro k
    rw [matchLoop, matchLoop, ih (k + 1)]
    by_cases hk : j = k
    · subst hk
      rw [List.getElem?_set, if_pos rfl, hzero]
      by_cases hj : j < pattern.length
      · rw [if_pos hj, List.getElem?_eq_getElem hj]
        cases buffer[i + j]? with
        | none => rfl
        | some b => simp only [byte_and_zero]
      · rw [if_neg hj, List.getElem?_eq_none (Nat.not_lt.mp hj)]
    · rw [List.getElem?_set, if_neg hk]

theorem scanLoop_set (base : Nat) (buffer pattern mask : List BYTE) (j : Nat) (v : BYTE)
    (hzero : mask[j]? = some 0) :
    ∀ n i results, scanLoop base buffer (pattern.set j v) mask i n results =
      scanLoop base buffer pattern mask i n results := by
  intro n
  induction n with
  | zero => intro i results; rfl
  | succ n ih =>
    intro i results
    rw [scanLoop, scanLoop, List.length_set, matchLoop_set buffer pattern mask i j v hzero]
    simp only [ih]

theorem scanRegions_set (s : MemoryScanner) (os : RemoteProcess) (pattern mask : List BYTE)
    (j : Nat) (v : BYTE) (hzero : mask[j]? = some 0) :
    ∀ (regions : List MemoryRegion) (results : List ScanResult),
      scanRegions s os (pattern.set j v) mask regions results =
        scanRegions s os pattern mask regions results := by
  intro regions
  induction regions with
  | nil => intro results; rfl
  | cons r rest ih =>
    intro results
    rw [scanRegions, scanRegions]
    simp only [ih, List.length_set, scanBuffer, scanLoop_set _ _ _ _ j v hzero]

theorem effectiveMask_of_getElem? {mask : List BYTE} {j : Nat} {m : BYTE}
    (h : mask[j]? = some m) (pattern : List BYTE) :
    effectiveMask pattern mask = mask := by
  unfold effectiveMask
  cases mask with
  | nil => simp at h
  | cons a as => simp

theorem mem_matchesInBuffer64 {base : Nat} {buffer pattern mask : List BYTE} {r : ScanResult}
    (h : r ∈ matchesInBuffer64 base buffer pattern mask) :
    ∃ i, i + pattern.length ≤ buffer.length ∧ MatchesAt buffer pattern mask i ∧
      r = ⟨wrap64 ((base : Int) + (i : Int)), (buffer.drop i).take pattern.length⟩ := by
  unfold matchesInBuffer64 at h
  rw [List.mem_map] at h
  obtain ⟨i, hi, rfl⟩ := h
  rw [List.mem_filter] at hi
  have := of_decide_eq_true hi.2
  exact ⟨i, this.1, this.2, rfl⟩

theorem mem_matchesInRegions64 (s : MemoryScanner) (os : RemoteProcess)
    (pattern mask : List BYTE) (r : ScanResult) :
    ∀ regions : List MemoryRegion, r ∈ matchesInRegions64 s os pattern mask regions →
      ∃ region ∈ regions, ∃ buffer i,
        ReadMemory s os region.start (regionSize region) = some buffer ∧
        i + pattern.length ≤ buffer.length ∧
        MatchesAt buffer pattern (maskOrExact pattern mask) i ∧
        r = ⟨wrap64 ((region.start : Int) + (i : Int)),
              (buffer.drop i).take pattern.length⟩ := by
  intro regions
  induction regions with
  | nil => intro h; simp [matchesInRegions64] at h
  | cons x rest ih =>
    intro h
    rw [matchesInRegions64_cons, List.mem_append] at h
    rcases h with h | h
    · split at h
      · cases hrm : ReadMemory s os x.start (regionSize x) with
        | none => rw [hrm] at h; simp at h
        | some buffer =>
          rw [hrm] at h
          obtain ⟨i, h1, h2, h3⟩ := mem_matchesInBuffer64 h
          exact ⟨x, List.mem_cons_self _ _, buffer, i, hrm, h1, h2, h3⟩
      · simp at h
    · obtain ⟨region, hmem, rest1⟩ := ih h
      exact ⟨region, List.mem_cons_of_mem _ hmem, rest1⟩

theorem exact_slice {buffer pattern : List BYTE} {i : Nat}
    (hfit : i + pattern.length ≤ buffer.length)
    (hmatch : MatchesAt buffer pattern (List.replicate pattern.length 255) i) :
    (buffer.drop i).take pattern.length = pattern := by
  apply List.ext_getElem
  · simp; omega
  · intro n h1 h2
    have h := hmatch n h2
    have hb : i + n < buffer.length := by omega
    rw [List.getD_eq_getElem _ _ hb, List.getD_eq_getElem _ _ h2,
      List.getD_eq_getElem _ _ (by simpa using h2)] at h
    simp only [List.getElem_replicate, byte_and_ff] at h
    rw [List.getElem_take, List.getElem_drop]
    exact h

/-! ## Lemmas on a pattern longer than the buffer -/

theorem matchLoop_true_fits (buffer pattern mask : List BYTE) (i : Nat) :
    ∀ n j, 0 < n → matchLoop buffer pattern mask i j n = some true →
      i + j + n ≤ buffer.length := by
  intro n
  induction n with
  | zero => intro j h; omega
  | succ n ih =>
    intro j _ h
    rw [matchLoop] at h
    cases hb : buffer[i + j]? with
    | none => rw [hb] at h; simp at h
    | some b =>
      have hlt : i + j < buffer.length := by
        by_contra hcon
        rw [List.getElem?_eq_none (Nat.not_lt.mp hcon)] at hb
        simp at hb
      rw [hb] at h
      cases hm : mask[j]? with
      | none => rw [hm] at h; simp at h
      | some m =>
        rw [hm] at h
        cases hp : pattern[j]? with
        | none => rw [hp] at h; simp at h
        | some p =>
          rw [hp] at h
          simp only [] at h
          split at h
          · simp at h
          · rcases Nat.eq_zero_or_pos n with hn | hn
            · omega
            · have := ih (j + 1) hn h
              omega

theorem scanLoop_none (base : Nat) (buffer pattern mask : List BYTE) :
    ∀ d i n results, i + d = buffer.length → buffer.length - i < pattern.length → d < n →
      scanLoop base buffer pattern mask i n results = none := by
  intro d
  induction d with
  | zero =>
    intro i n results hi hlong hn
    obtain ⟨n1, rfl⟩ : ∃ n1, n = n1 + 1 := ⟨n - 1, by omega⟩
    obtain ⟨p1, hp1⟩ : ∃ p1, pattern.length = p1 + 1 := ⟨pattern.length - 1, by omega⟩
    have hnone : buffer[i + 0]? = none := List.getElem?_eq_none (by omega)
    rw [scanLoop, hp1, matchLoop, hnone]
  | succ d ih =>
    intro i n results hi hlong hn
    obtain ⟨n1, rfl⟩ : ∃ n1, n = n1 + 1 := ⟨n - 1, by omega⟩
    rw [scanLoop]
    cases hml : matchLoop buffer pattern mask i 0 pattern.length with
    | none => rfl
    | some found =>
      cases found with
      | true =>
        have := matchLoop_true_fits buffer pattern mask i pattern.length 0 (by omega) hml
        omega
      | false =>
        simp only []
        exact ih (i + 1) n1 results (by omega) (by omega) (by omega)

theorem wrap64_sub_of_lt {a b : Nat} (hab : a < b) (hb : b < 2 ^ 64) :
    wrap64 ((a : Int) - (b : Int)) = 2 ^ 64 + a - b := by
  unfold wrap64
  have h2 : (2 : Int) ^ 64 = 18446744073709551616 := by norm_num
  have h3 : (2 : Nat) ^ 64 = 18446744073709551616 := by norm_num
  rw [h2, h3] at *
  omega

theorem scanBuffer_none (base : Nat) (buffer pattern mask : List BYTE)
    (results : List ScanResult)
    (hlong : buffer.length < pattern.length) (hp : pattern.length < 2 ^ 64) :
    scanBuffer base buffer pattern mask results = none := by
  unfold scanBuffer
  apply scanLoop_none base buffer pattern mask buffer.length 0 _ results (by omega) (by omega)
  rw [wrap64_sub_of_lt hlong hp]
  omega

/-! ## Lemmas on the inline scan of FindValidationFunctions -/

theorem head?_filter_eq_find? {α : Type} (p : α → Bool) (l : List α) :
    (l.filter p).head? = l.find? p := by
  induction l with
  | nil => rfl
  | cons a as ih =>
    rw [List.filter_cons, List.find?_cons]
    cases hpa : p a with
    | true => simp
    | false => simp [ih]

theorem ownershipPattern_length : ownershipPattern.length = 22 := rfl

theorem inlineMatchLoop_eq_matchLoop (base : Nat) (image : List BYTE) (k : Nat)
    (hfit : k + 22 ≤ image.length) (hspace : base + image.length < 2 ^ 64) :
    ∀ n i, i + n = 22 →
      inlineMatchLoop (imageProcess base image).deref (base + k) i n =
        matchLoop image ownershipPattern (List.replicate 22 255) k i n := by
  intro n
  induction n with
  | zero => intro i _; rfl
  | succ n ih =>
    intro i hi
    have h1 : k + i < image.length := by omega
    have h2 : i < ownershipPattern.length := by rw [ownershipPattern_length]; omega
    have h3 : i < (List.replicate 22 (255 : BYTE)).length := by simp; omega
    have haddr : wrap64 (((base + k : Nat) : Int) + (i : Int)) = base + k + i :=
      wrap64_add_of_lt (by omega)
    have hderef : (imageProcess base image).deref (base + k + i) = some image[k + i] := by
      show (if base ≤ base + k + i then image[base + k + i - base]? else none) = _
      rw [if_pos (by omega)]
      have : base + k + i - base = k + i := by omega
      rw [this, List.getElem?_eq_getElem h1]
    rw [inlineMatchLoop, matchLoop, haddr, hderef, List.getElem?_eq_getElem h1,
      List.getElem?_eq_getElem h2, List.getElem?_eq_getElem h3, ih (i + 1) (by omega)]
    simp only [List.getElem_replicate, byte_and_ff]

theorem inlineMatchLoop_eq_matchesAt (base : Nat) (image : List BYTE) (k : Nat)
    (hfit : k + 22 ≤ image.length) (hspace : base + image.length < 2 ^ 64) :
    inlineMatchLoop (imageProcess base image).deref (base + k) 0 ownershipPattern.length =
      some (decide (MatchesAt image ownershipPattern (List.replicate 22 255) k)) := by
  rw [ownershipPattern_length,
    inlineMatchLoop_eq_matchLoop base image k hfit hspace 22 0 (by omega)]
  exact matchLoop_eq_matchesAt image ownershipPattern (List.replicate 22 255) k
    (by rw [ownershipPattern_length]; omega) (by simp [ownershipPattern_length])

theorem inlineScanLoop_eq (base : Nat) (image : List BYTE)
    (hspace : base + image.length < 2 ^ 64) :
    ∀ n k, k + n + 21 ≤ image.length →
      inlineScanLoop (imageProcess base image).deref (base + k) n =
        some (((List.range' k n).find?
          (fun i => decide (MatchesAt image ownershipPattern (List.replicate 22 255) i))).map
          (fun i => base + i)) := by
  intro n
  induction n with
  | zero => intro k _; rfl
  | succ n ih =>
    intro k hk
    rw [inlineScanLoop, inlineMatchLoop_eq_matchesAt base image k (by omega) hspace,
      List.range'_succ, List.find?_cons]
    by_cases hmatch : MatchesAt image ownershipPattern (List.replicate 22 255) k
    · simp only [decide_eq_true hmatch, Option.map_some']
    · simp only [decide_eq_false hmatch]
      exact ih (k + 1) (by omega)

theorem inlineScan_eq (base : Nat) (image : List BYTE) (hlen : 22 ≤ image.length)
    (hspace : base + image.length < 2 ^ 64) :
    inlineScan (imageProcess base image).deref base image.length =
      some (((List.range' 0 (image.length - 22)).find?
        (fun i => decide (MatchesAt image ownershipPattern (List.replicate 22 255) i))).map
        (fun i => base + i)) := by
  unfold inlineScan
  have hlimit : wrap64 ((base : Int) + (image.length : Int) - (ownershipPattern.length : Int))
      = base + image.length - 22 := by
    rw [ownershipPattern_length]
    have h1 : ((base : Int) + (image.length : Int) - ((22 : Nat) : Int)) =
        ((base + image.length - 22 : Nat) : Int) := by omega
    rw [h1, wrap64_of_lt (by omega)]
  have hcount : base + image.length - 22 - base = image.length - 22 := by omega
  rw [hlimit, hcount]
  have := inlineScanLoop_eq base image hspace (image.length - 22) 0 (by omega)
  rwa [Nat.add_zero] at this

theorem ScanPattern_imageRegion (s : MemoryScanner) (base : Nat) (image : List BYTE)
    (hopen : s.m_processHandle ≠ 0) (hlen : 22 ≤ image.length)
    (hspace : base + image.length < 2 ^ 64) :
    ScanPattern s (imageRegion base image) ownershipPattern [] =
      some (((List.range' 0 (image.length - 22 + 1)).filter
        (fun i => decide (MatchesAt image ownershipPattern (List.replicate 22 255) i))).map
        (fun i => ⟨base + i, (image.drop i).take 22⟩)) := by
  have hsize : regionSize (imageAsRegion base image) = image.length := by
    unfold regionSize
    show wrap64 (((base + image.length : Nat) : Int) - (base : Int)) = image.length
    rw [wrap64_sub_of_le (by omega) (by omega)]
    omega
  have hread : ReadMemory s (imageRegion base image) base image.length = some image := by
    unfold ReadMemory
    rw [if_neg hopen]
    show (match (if base = base ∧ image.length = image.length then some image else none) with
      | none => none
      | some bytes => if bytes.length ≠ image.length then none else some bytes) = some image
    rw [if_pos ⟨rfl, rfl⟩]
    simp
  have halloc : allocationsSucceed (imageRegion base image) ownershipPattern
      (GetMemoryRegions s (imageRegion base image)) = true := by
    simp [allocationsSucceed, imageRegion]
  rw [ScanPattern_eq64 s (imageRegion base image) ownershipPattern [] (Or.inl rfl) halloc,
    GetMemoryRegions, if_neg hopen]
  show some (matchesInRegions64 s (imageRegion base image) ownershipPattern []
    [imageAsRegion base image]) = _
  congr 1
  have hstart : (imageAsRegion base image).start = base := rfl
  have hreadable : (imageAsRegion base image).isReadable = true := rfl
  rw [matchesInRegions64_cons, hsize, hstart, hreadable]
  simp only [hread, ownershipPattern_length, hlen, and_self, if_true]
  rw [matchesInBuffer64_eq _ _ _ _ hspace]
  unfold matchesInBuffer
  rw [ownershipPattern_length, filter_range_fits image.length 22 hlen]
  simp [matchesInRegions64, maskOrExact, ownershipPattern_length]

/-! ## Lemmas on the protection of the remote memory -/

theorem firstPage_le_lastPage (address size : Nat) (hsize : size ≠ 0) :
    firstPage address ≤ lastPage address size := by
  unfold firstPage lastPage PAGE_SIZE
  omega

theorem VirtualProtectEx_bytes {m m1 : RemoteMemory} {address size newProtect old : Nat}
    (h : VirtualProtectEx m address size newProtect = some (m1, old)) :
    m1.bytes = m.bytes := by
  unfold VirtualProtectEx at h
  split at h
  · simp at h
  · split at h
    · split at h
      · simp at h
      · simp only [Option.some.injEq, Prod.mk.injEq] at h
        rw [← h.1]
    · simp at h

theorem restoreProtection_bytes (m : RemoteMemory) (address size oldProtect : Nat) :
    (restoreProtection m address size oldProtect).bytes = m.bytes := by
  unfold restoreProtection
  cases h : VirtualProtectEx m address size oldProtect with
  | none => rfl
  | some r =>
    obtain ⟨m1, old⟩ := r
    exact VirtualProtectEx_bytes h

theorem VirtualProtectEx_of_uniform (m : RemoteMemory) (address size p newProtect : Nat)
    (hsize : size ≠ 0) (hu : RangeProtection m address size p) :
    VirtualProtectEx m address size newProtect =
      some ({ m with protect := fun q =>
                if firstPage address ≤ q ∧ q ≤ lastPage address size then some newProtect
                else m.protect q }, p) := by
  have hle := firstPage_le_lastPage address size hsize
  have hall : (List.range (lastPage address size - firstPage address + 1)).all
      (fun k => (m.protect (firstPage address + k)).isSome) = true := by
    rw [List.all_eq_true]
    intro k hk
    rw [List.mem_range] at hk
    rw [hu k hk]
    rfl
  have hfirst := hu 0 (by omega)
  rw [Nat.add_zero] at hfirst
  unfold VirtualProtectEx
  rw [if_neg hsize, if_pos hall, hfirst]

theorem restoreProtection_of_uniform (m : RemoteMemory) (address size p old : Nat)
    (hsize : size ≠ 0) (hu : RangeProtection m address size p) :
    (restoreProtection m address size old).protect =
      fun q => if firstPage address ≤ q ∧ q ≤ lastPage address size then some old
        else m.protect q := by
  unfold restoreProtection
  rw [VirtualProtectEx_of_uniform m address size p old hsize hu]

/-! ## C1 -/

/-- C2. A mask byte `0x00` is a wildcard in `ScanPattern`: for a mask at least as long as
the pattern and a position `j` with `mask[j] = 0`, the scan of the pattern with
`pattern[j]` replaced by any byte `v` has the same outcome as the scan of the pattern; and
when the buffers of the regions can be allocated, the scan returns a list of results and
the scan of the changed pattern returns the same list (the same addresses and captured
bytes). -/
theorem ScanPattern_mask_zero_is_wildcard (s : MemoryScanner) (os : RemoteProcess)
    (pattern mask : List BYTE) (j : Nat) (v : BYTE)
    (hlen : pattern.length ≤ mask.length) (hzero : mask[j]? = some 0) :
    ScanPattern s os (pattern.set j v) mask = ScanPattern s os pattern mask ∧
      (allocationsSucceed os pattern os.regions = true →
        ∃ results, ScanPattern s os pattern mask = some results ∧
          ScanPattern s os (pattern.set j v) mask = some results) := by
  have heq : ScanPattern s os (pattern.set j v) mask = ScanPattern s os pattern mask := by
    unfold ScanPattern
    rw [effectiveMask_of_getElem? hzero (pattern.set j v),
      effectiveMask_of_getElem? hzero pattern,
      scanRegions_set s os pattern mask j v hzero]
  refine ⟨heq, fun halloc => ?_⟩
  have hsome := ScanPattern_eq64 s os pattern mask (Or.inr hlen)
    (allocationsSucceed_GetMemoryRegions s os pattern halloc)
  exact ⟨_, hsome, by rw [heq, hsome]⟩

/-- Witness of C2 on `exampleProcess`: with the mask `FF 00` the patterns `01 02` and
`01 77` give the same three results. -/
theorem ScanPattern_mask_zero_is_wildcard_witness :
    (([1, 2] : List BYTE).length ≤ ([255, 0] : List BYTE).length ∧
      ([255, 0] : List BYTE)[1]? = some 0 ∧
      allocationsSucceed exampleProcess [1, 2] exampleProcess.regions = true) ∧
    (∃ results, ScanPattern exampleScanner exampleProcess [1, 2] [255, 0] = some results ∧
      ScanPattern exampleScanner exampleProcess (([1, 2] : List BYTE).set 1 0x77) [255, 0] =
        some results) ∧
    ScanPattern exampleScanner exampleProcess (([1, 2] : List BYTE).set 1 0x77) [255, 0] =
      some [⟨0x1000, [1, 2]⟩, ⟨0x1003, [1, 2]⟩, ⟨0x5001, [1, 3]⟩] :=
  ⟨⟨by decide, by decide, by decide⟩,
    (ScanPattern_mask_zero_is_wildcard exampleScanner exampleProcess [1, 2] [255, 0] 1 0x77
      (by decide) (by decide)).2 (by decide),
    by decide⟩

/-! ## C3 -/

/-- C3. Omitting the mask means exact matching: `ScanPattern(pattern, {})` has the same
outcome as `ScanPattern(pattern, mask)` with `mask` = `|pattern|` bytes `0xFF`; in every
result of that call `bytes` has length `|pattern|` and equals `pattern`; for every mask
that is empty or at least as long as the pattern, every `bytes` of a result is the slice
`buffer[i .. i + |pattern|)` of a buffer read from a region, at the offset `i` of the
result's address; and for such a mask the call returns a list of results when the buffers
of the regions can be allocated. -/
theorem ScanPattern_empty_mask_is_exact (s : MemoryScanner) (os : RemoteProcess)
    (pattern : List BYTE) :
    ScanPattern s os pattern [] =
        ScanPattern s os pattern (List.replicate pattern.length 255) ∧
      (∀ results, ScanPattern s os pattern [] = some results →
        ∀ r ∈ results, r.bytes.length = pattern.length ∧ r.bytes = pattern) ∧
      (∀ mask : List BYTE, mask = [] ∨ pattern.length ≤ mask.length →
        ∀ results, ScanPattern s os pattern mask = some results →
          ∀ r ∈ results, ∃ region ∈ os.regions, ∃ buffer i,
            ReadMemory s os region.start (regionSize region) = some buffer ∧
            i + pattern.length ≤ buffer.length ∧
            r.address = wrap64 ((region.start : Int) + (i : Int)) ∧
            r.bytes = (buffer.drop i).take pattern.length) ∧
      (∀ mask : List BYTE, mask = [] ∨ pattern.length ≤ mask.length →
        allocationsSucceed os pattern os.regions = true →
          ∃ results, ScanPattern s os pattern mask = some results) := by
  refine ⟨?_, ?_, ?_, ?_⟩
  · unfold ScanPattern effectiveMask
    cases pattern <;> simp [List.replicate]
  · intro results hsome r hr
    rw [ScanPattern_eq_some s os pattern [] (Or.inl rfl) results hsome] at hr
    obtain ⟨region, _, buffer, i, _, hfit, hmatch, rfl⟩ :=
      mem_matchesInRegions64 s os pattern [] r _ hr
    have hslice := exact_slice hfit (by simpa [maskOrExact] using hmatch)
    simp only [hslice, and_self]
  · intro mask hmask results hsome r hr
    rw [ScanPattern_eq_some s os pattern mask hmask results hsome] at hr
    obtain ⟨region, hmem, buffer, i, hrm, hfit, _, rfl⟩ :=
      mem_matchesInRegions64 s os pattern mask r _ hr
    have hmem1 : region ∈ os.regions := by
      unfold GetMemoryRegions at hmem
      split at hmem
      · simp at hmem
      · exact hmem
    exact ⟨region, hmem1, buffer, i, hrm, hfit, rfl, rfl⟩
  · intro mask hmask halloc
    exact ⟨_, ScanPattern_eq64 s os pattern mask hmask
      (allocationsSucceed_GetMemoryRegions s os pattern halloc)⟩

/-- Witness of C3 on `exampleProcess` with the pattern `01 02`: the two results of the call
without a mask. -/
theorem ScanPattern_empty_mask_is_exact_witness :
    ScanPattern exampleScanner exampleProcess [1, 2] [] =
        some [⟨0x1000, [1, 2]⟩, ⟨0x1003, [1, 2]⟩] ∧
      ScanPattern exampleScanner exampleProcess [1, 2] [] =
        ScanPattern exampleScanner exampleProcess [1, 2]
          (List.replicate ([1, 2] : List BYTE).length 255) :=
  ⟨by decide, (ScanPattern_empty_mask_is_exact exampleScanner exampleProcess [1, 2]).1⟩

/-! ## C4 -/

/-- C4 (the code departs from the claim). When the module is found and its image of
`modBaseSize` bytes is read, a pattern longer than the image makes `ScanPatternInModule`
index the buffer outside its bounds: the unsigned loop bound
`buffer.size() - pattern.size()` wraps around, and the run does not return the empty list
the claim states. -/
theorem ScanPatternInModule_pattern_longer_than_image (s : MemoryScanner) (os : RemoteProcess)
    (moduleName : String) (pattern mask : List BYTE) (moduleEntry : MODULEENTRY32)
    (buffer : List BYTE)
    (hopen : s.m_processHandle ≠ 0)
    (hfound : findModule os moduleName = some moduleEntry)
    (hread : ReadMemory s os moduleEntry.modBaseAddr moduleEntry.modBaseSize = some buffer)
    (hlong : moduleEntry.modBaseSize < pattern.length)
    (hsize : pattern.length < 2 ^ 64) :
    ScanPatternInModule s os moduleName pattern mask = none ∧
      ScanPatternInModule s os moduleName pattern mask ≠ some [] := by
  have hlen := ReadMemory_length hread
  have h : ScanPatternInModule s os moduleName pattern mask = none := by
    unfold ScanPatternInModule
    rw [if_neg hopen, hfound]
    simp only [hread]
    split
    · rfl
    · exact scanBuffer_none _ _ _ _ _ (by omega) hsize
  exact ⟨h, by rw [h]; simp⟩

/-- Companion of the preceding theorem: when the buffer is allocated and the pattern is not
longer than the image, the results of `ScanPatternInModule` are exactly the entries with
address `modBaseAddr + i`, in ascending `i`, for the offsets `i` with `i + |pattern| ≤ modBaseSize` at which the masked
pattern matches the image. -/
theorem ScanPatternInModule_of_fits (s : MemoryScanner) (os : RemoteProcess)
    (moduleName : String) (pattern mask : List BYTE) (moduleEntry : MODULEENTRY32)
    (buffer : List BYTE)
    (hopen : s.m_processHandle ≠ 0)
    (hfound : findModule os moduleName = some moduleEntry)
    (halloc : os.allocate moduleEntry.modBaseSize = true)
    (hread : ReadMemory s os moduleEntry.modBaseAddr moduleEntry.modBaseSize = some buffer)
    (hmask : mask = [] ∨ pattern.length ≤ mask.length)
    (hfits : pattern.length ≤ moduleEntry.modBaseSize)
    (hspace : moduleEntry.modBaseAddr + moduleEntry.modBaseSize < 2 ^ 64) :
    ScanPatternInModule s os moduleName pattern mask =
      some (matchesInBuffer moduleEntry.modBaseAddr buffer pattern
        (maskOrExact pattern mask)) := by
  have hlen := ReadMemory_length hread
  unfold ScanPatternInModule
  rw [if_neg hopen, hfound]
  simp only [hread, halloc, Bool.not_true, Bool.false_eq_true, if_false]
  rw [scanBuffer_eq64 _ _ _ _ _ (effectiveMask_length hmask) (by omega) (by omega),
    matchesInBuffer64_eq _ _ _ _ (by omega), effectiveMask_eq_maskOrExact]
  simp

/-- Companion on the early returns: when the module is not found, or the buffer is
allocated and the read of the image fails, the result is empty. -/
theorem ScanPatternInModule_not_found_or_unread (s : MemoryScanner) (os : RemoteProcess)
    (moduleName : String) (pattern mask : List BYTE)
    (h : findModule os moduleName = none ∨
      ∃ moduleEntry, findModule os moduleName = some moduleEntry ∧
        os.allocate moduleEntry.modBaseSize = true ∧
        ReadMemory s os moduleEntry.modBaseAddr moduleEntry.modBaseSize = none) :
    ScanPatternInModule s os moduleName pattern mask = some [] := by
  unfold ScanPatternInModule
  split
  · rfl
  · rcases h with h | ⟨moduleEntry, h1, h2, h3⟩
    · rw [h]
    · rw [h1]; simp only [h2, h3, Bool.not_true, Bool.false_eq_true, if_false]

theorem onePageProcess_read :
    ReadMemory exampleScanner onePageProcess 0x400000 4096 =
      some (List.replicate 4096 0) := by
  have h : onePageProcess.ReadProcessMemory 0x400000 4096 = some (List.replicate 4096 0) := by
    show (if 0x400000 = 0x400000 ∧ 4096 = 4096 then some (List.replicate 4096 (0 : BYTE))
      else none) = _
    rw [if_pos ⟨rfl, rfl⟩]
  rw [ReadMemory, if_neg (by decide), h]
  simp only [List.length_replicate, ne_eq, not_true_eq_false, if_false]

/-- Witness of C4: a module image of one page (4096 bytes) and a pattern of 4097 bytes. -/
theorem ScanPatternInModule_pattern_longer_than_image_witness :
    (exampleScanner.m_processHandle ≠ 0 ∧
      findModule onePageProcess "target.exe" =
        some { szModule := "Target.exe", modBaseAddr := 0x400000, modBaseSize := 4096 } ∧
      ReadMemory exampleScanner onePageProcess 0x400000 4096 = some (List.replicate 4096 0) ∧
      4096 < (List.replicate 4097 (0 : BYTE)).length ∧
      (List.replicate 4097 (0 : BYTE)).length < 2 ^ 64 ∧
      onePageProcess.allocate 4096 = true) ∧
    ScanPatternInModule exampleScanner onePageProcess "target.exe"
        (List.replicate 4097 0) [] = none ∧
      ScanPatternInModule exampleScanner onePageProcess "target.exe"
        (List.replicate 4097 0) [] ≠ some [] :=
  ⟨⟨by decide, by decide, onePageProcess_read,
      by rw [List.length_replicate]; decide, by rw [List.length_replicate]; norm_num,
      by decide⟩,
    ScanPatternInModule_pattern_longer_than_image exampleScanner onePageProcess "target.exe"
      (List.replicate 4097 0) []
      { szModule := "Target.exe", modBaseAddr := 0x400000, modBaseSize := 4096 }
      (List.replicate 4096 0) (by decide) (by decide) onePageProcess_read
      (by rw [List.length_replicate]; decide) (by rw [List.length_replicate]; norm_num)⟩

/-! ## C5 -/

/-- C5. `StartValidationBypass` called while the bypass is active returns false and leaves
the whole state unchanged: `g_BypassActive`, `g_BypassThread` and the record of the threads
created (no thread is created), for every bypass type and whatever handle the platform
would have given. -/
theorem StartValidationBypass_while_active (thread : Nat) (bypassType : ValidationBypassType)
    (c : Controller) (hactive : c.g_BypassActive = true) :
    StartValidationBypass thread bypassType c = (false, c) := by
  unfold StartValidationBypass
  rw [if_pos hactive]

/-- Witness of C5 on `activeController`. -/
theorem StartValidationBypass_while_active_witness :
    activeController.g_BypassActive = true ∧
      StartValidationBypass 0x88 BYPASS_ANTI_TELEPORT activeController =
        (false, activeController) :=
  ⟨rfl, StartValidationBypass_while_active 0x88 BYPASS_ANTI_TELEPORT activeController rfl⟩

/-! ## C6 -/

/-- C6. `StartValidationBypass` returns true if and only if the bypass was not active at the
call and the thread creation succeeded; after a true return `IsValidationBypassActive()`
returns true, `g_BypassThread` holds the new thread handle and exactly that thread was
created; when the bypass was not active and the thread creation fails it returns false and
`IsValidationBypassActive()` still returns false. -/
theorem StartValidationBypass_true_iff (thread : Nat) (bypassType : ValidationBypassType)
    (c : Controller) :
    ((StartValidationBypass thread bypassType c).1 = true ↔
        c.g_BypassActive = false ∧ thread ≠ 0) ∧
      ((StartValidationBypass thread bypassType c).1 = true →
        IsValidationBypassActive (StartValidationBypass thread bypassType c).2 = true ∧
        (StartValidationBypass thread bypassType c).2.g_BypassThread = thread ∧
        (StartValidationBypass thread bypassType c).2.created =
          c.created ++ [(thread, bypassType)]) ∧
      (c.g_BypassActive = false → thread = 0 →
        (StartValidationBypass thread bypassType c).1 = false ∧
        IsValidationBypassActive (StartValidationBypass thread bypassType c).2 = false) := by
  unfold StartValidationBypass IsValidationBypassActive
  by_cases hactive : c.g_BypassActive = true
  · simp [hactive]
  · have hfalse : c.g_BypassActive = false := by simpa using hactive
    by_cases hthread : thread = 0
    · simp [hfalse, hthread]
    · simp [hfalse, hthread]

/-- Witness of C6 on `idleController`: a start that succeeds and one whose thread creation
fails. -/
theorem StartValidationBypass_true_iff_witness :
    StartValidationBypass 0x77 BYPASS_ITEM_CHECK idleController = (true, activeController) ∧
      StartValidationBypass 0 BYPASS_ITEM_CHECK idleController = (false, idleController) ∧
      ((StartValidationBypass 0x77 BYPASS_ITEM_CHECK idleController).1 = true ↔
        idleController.g_BypassActive = false ∧ 0x77 ≠ 0) :=
  ⟨by decide, by decide,
    (StartValidationBypass_true_iff 0x77 BYPASS_ITEM_CHECK idleController).1⟩

/-! ## C7 -/

/-- C7. `StopValidationBypass` returns true from every state and afterwards
`IsValidationBypassActive()` returns false; if the bypass was active, `g_BypassThread` is
`NULL` afterwards; if it was already stopped the state is unchanged; a second `Stop` leaves
the state of the first. -/
theorem StopValidationBypass_idempotent (c : Controller) :
    (StopValidationBypass c).1 = true ∧
      IsValidationBypassActive (StopValidationBypass c).2 = false ∧
      (c.g_BypassActive = true → (StopValidationBypass c).2.g_BypassThread = 0) ∧
      (c.g_BypassActive = false → (StopValidationBypass c).2 = c) ∧
      StopValidationBypass (StopValidationBypass c).2 = (true, (StopValidationBypass c).2) := by
  unfold StopValidationBypass IsValidationBypassActive
  by_cases hactive : c.g_BypassActive = true
  · by_cases hthread : c.g_BypassThread = 0
    · simp [hactive, hthread]
    · simp [hactive, hthread]
  · have hfalse : c.g_BypassActive = false := by simpa using hactive
    simp [hfalse]

/-- Witness of C7 on `activeController`: the thread `0x77` is terminated, its handle closed
and the state cleared. -/
theorem StopValidationBypass_idempotent_witness :
    StopValidationBypass activeController =
        (true, { g_BypassActive := false, g_BypassThread := 0,
                 created := [(0x77, BYPASS_ITEM_CHECK)], terminated := [0x77],
                 closed := [0x77] }) ∧
      StopValidationBypass (StopValidationBypass activeController).2 =
        (true, (StopValidationBypass activeController).2) :=
  ⟨by decide, (StopValidationBypass_idempotent activeController).2.2.2.2⟩

/-! ## C8 -/

theorem matchesAt_append_self (front : List BYTE) :
    MatchesAt (front ++ ownershipPattern) ownershipPattern (List.replicate 22 255)
      front.length := by
  intro j hj
  rw [List.getD_append_right _ _ _ _ (by omega)]
  have : front.length + j - front.length = j := by omega
  rw [this]

theorem FindValidationFunctions_of_inlineScan (base : Nat) (image : List BYTE)
    (g : ValidationAddresses) (found : Option Nat)
    (h : inlineScan (imageProcess base image).deref base image.length = some found) :
    ∃ flag g1, FindValidationFunctions (imageProcess base image) g = some (flag, g1) ∧
      g1.validateItemOwnership =
        (if found.getD g.validateItemOwnership = 0 then wrap64 ((base : Int) + 0x1500000)
          else found.getD g.validateItemOwnership) := by
  unfold FindValidationFunctions
  show ∃ flag g1, (match inlineScan (imageProcess base image).deref base image.length with
    | none => none
    | some found1 => _) = some (flag, g1) ∧ _
  rw [h]
  refine ⟨_, _, rfl, ?_⟩
  cases found with
  | none => by_cases h0 : g.validateItemOwnership = 0 <;> simp [h0]
  | some addr => by_cases h0 : addr = 0 <;> simp [h0]

/-- C8 (the code departs from the claim). When the module image ends with the 22-byte
pattern and the pattern matches at no earlier offset, the exact-match scan of
`MemoryScanner` over the image has one result, at the last offset `|image| - 22`, but the
inline scan of `FindValidationFunctions` finds no match: its loop stops one address short
(`addr < base + SizeOfImage - 22`), and the address stored in `validateItemOwnership` is
the placeholder `base + 0x1500000`. -/
theorem FindValidationFunctions_misses_last_offset (s : MemoryScanner) (base : Nat)
    (front : List BYTE)
    (hopen : s.m_processHandle ≠ 0)
    (hspace : base + (front ++ ownershipPattern).length < 2 ^ 64)
    (hfirst : ∀ i, i < front.length →
      ¬ MatchesAt (front ++ ownershipPattern) ownershipPattern (List.replicate 22 255) i) :
    ScanPattern s (imageRegion base (front ++ ownershipPattern)) ownershipPattern [] =
        some [⟨base + front.length, ownershipPattern⟩] ∧
      inlineScan (imageProcess base (front ++ ownershipPattern)).deref base
        (front ++ ownershipPattern).length = some none ∧
      ∃ flag g1,
        FindValidationFunctions (imageProcess base (front ++ ownershipPattern)) {} =
          some (flag, g1) ∧
        g1.validateItemOwnership = wrap64 ((base : Int) + 0x1500000) := by
  have hlen : (front ++ ownershipPattern).length = front.length + 22 := by
    rw [List.length_append, ownershipPattern_length]
  have hnofind : (List.range' 0 front.length).filter
      (fun i => decide (MatchesAt (front ++ ownershipPattern) ownershipPattern
        (List.replicate 22 255) i)) = [] := by
    rw [List.filter_eq_nil_iff]
    intro i hi
    rw [List.mem_range'_1] at hi
    simpa using hfirst i (by omega)
  have hscan : inlineScan (imageProcess base (front ++ ownershipPattern)).deref base
      (front ++ ownershipPattern).length = some none := by
    rw [inlineScan_eq base _ (by omega) hspace]
    have h22 : (front ++ ownershipPattern).length - 22 = front.length := by omega
    rw [h22, ← head?_filter_eq_find?, hnofind]
    rfl
  refine ⟨?_, hscan, ?_⟩
  · rw [ScanPattern_imageRegion s base _ hopen (by omega) hspace]
    have h22 : (front ++ ownershipPattern).length - 22 + 1 = front.length + 1 := by omega
    rw [h22, List.range'_concat, List.filter_append, hnofind]
    have hlast := matchesAt_append_self front
    simp only [Nat.zero_add, Nat.one_mul, List.nil_append, List.filter_cons, hlast,
      decide_True, if_true, List.filter_nil, List.map_cons, List.map_nil, List.drop_left]
    congr 3
  · obtain ⟨flag, g1, h1, h2⟩ := FindValidationFunctions_of_inlineScan base
      (front ++ ownershipPattern) {} none hscan
    exact ⟨flag, g1, h1, by simpa using h2⟩

/-- Witness of C8: the image is one page, 4074 zero bytes followed by the 22 bytes of the
pattern, loaded at `0x10000`. The scanner reports the match at `0x10FEA`; the inline scan
finds none and the controller stores `0x1510000`. -/
theorem FindValidationFunctions_misses_last_offset_witness :
    (exampleScanner.m_processHandle ≠ 0 ∧
      0x10000 + (List.replicate 4074 (0 : BYTE) ++ ownershipPattern).length < 2 ^ 64) ∧
    ScanPattern exampleScanner
        (imageRegion 0x10000 (List.replicate 4074 0 ++ ownershipPattern)) ownershipPattern [] =
        some [⟨0x10000 + (List.replicate 4074 (0 : BYTE)).length, ownershipPattern⟩] ∧
      inlineScan (imageProcess 0x10000 (List.replicate 4074 0 ++ ownershipPattern)).deref
        0x10000 (List.replicate 4074 (0 : BYTE) ++ ownershipPattern).length = some none ∧
      ∃ flag g1,
        FindValidationFunctions
          (imageProcess 0x10000 (List.replicate 4074 0 ++ ownershipPattern)) {} =
          some (flag, g1) ∧
        g1.validateItemOwnership = wrap64 ((0x10000 : Int) + 0x1500000) := by
  have hspace : 0x10000 + (List.replicate 4074 (0 : BYTE) ++ ownershipPattern).length
      < 2 ^ 64 := by
    rw [List.length_append, List.length_replicate, ownershipPattern_length]; norm_num
  exact ⟨⟨by decide, hspace⟩,
    FindValidationFunctions_misses_last_offset exampleScanner 0x10000
      (List.replicate 4074 0) (by decide) hspace (by
        intro i hi hmatch
        rw [List.length_replicate] at hi
        have h0 := hmatch 0 (by rw [ownershipPattern_length]; omega)
        rw [Nat.add_zero, List.getD_append _ _ _ _ (by rw [List.length_replicate]; exact hi),
          List.getD_eq_getElem _ _ (by rw [List.length_replicate]; exact hi),
          List.getElem_replicate] at h0
        revert h0
        decide)⟩

/-- Companion of the preceding theorem: when the pattern matches the image at an offset `i` with
`i + 22 < SizeOfImage`, the scanner's exact-match scan has a first result and the inline
scan of `FindValidationFunctions` stores the address of that first result. -/
theorem FindValidationFunctions_agrees_before_last_offset (s : MemoryScanner) (base : Nat)
    (image : List BYTE) (g : ValidationAddresses) (i : Nat)
    (hopen : s.m_processHandle ≠ 0) (hbase : 0 < base)
    (hspace : base + image.length < 2 ^ 64)
    (hi : i + 22 < image.length)
    (hmatch : MatchesAt image ownershipPattern (List.replicate 22 255) i) :
    ∃ r rest flag g1,
      ScanPattern s (imageRegion base image) ownershipPattern [] = some (r :: rest) ∧
      FindValidationFunctions (imageProcess base image) g = some (flag, g1) ∧
      g1.validateItemOwnership = r.address := by
  have hsome : ∃ i0, (List.range' 0 (image.length - 22)).find?
      (fun k => decide (MatchesAt image ownershipPattern (List.replicate 22 255) k)) =
      some i0 := by
    cases hf : (List.range' 0 (image.length - 22)).find?
        (fun k => decide (MatchesAt image ownershipPattern (List.replicate 22 255) k)) with
    | some i0 => exact ⟨i0, rfl⟩
    | none =>
      rw [List.find?_eq_none] at hf
      exact absurd (decide_eq_true hmatch) (hf i (by rw [List.mem_range'_1]; omega))
  obtain ⟨i0, hfind⟩ := hsome
  have hhead : ∃ tl, (List.range' 0 (image.length - 22)).filter
      (fun k => decide (MatchesAt image ownershipPattern (List.replicate 22 255) k)) =
      i0 :: tl := by
    have h := head?_filter_eq_find?
      (fun k => decide (MatchesAt image ownershipPattern (List.replicate 22 255) k))
      (List.range' 0 (image.length - 22))
    rw [hfind] at h
    cases hl : (List.range' 0 (image.length - 22)).filter
        (fun k => decide (MatchesAt image ownershipPattern (List.replicate 22 255) k)) with
    | nil => rw [hl] at h; simp at h
    | cons a tl =>
      rw [hl] at h
      simp only [List.head?_cons, Option.some.injEq] at h
      exact ⟨tl, by rw [h]⟩
  obtain ⟨tl, hfilter⟩ := hhead
  have hscan : inlineScan (imageProcess base image).deref base image.length =
      some (some (base + i0)) := by
    rw [inlineScan_eq base image (by omega) hspace, hfind]
    rfl
  obtain ⟨flag, g1, h1, h2⟩ := FindValidationFunctions_of_inlineScan base image g _ hscan
  have hsp : ∃ rest, ScanPattern s (imageRegion base image) ownershipPattern [] =
      some (⟨base + i0, (image.drop i0).take 22⟩ :: rest) := by
    rw [ScanPattern_imageRegion s base image hopen (by omega) hspace, List.range'_concat,
      List.filter_append, hfilter]
    exact ⟨_, rfl⟩
  obtain ⟨rest, hsp⟩ := hsp
  refine ⟨⟨base + i0, (image.drop i0).take 22⟩, rest, flag, g1, hsp, h1, ?_⟩
  · rw [h2]
    simp only [Option.getD_some]
    rw [if_neg (by omega)]

/-! ## C9 -/

/-- The result and the bytes of `WriteMemory`: it returns true iff
the scanner is open, the protection change succeeded and `WriteProcessMemory` succeeded
with exactly `size` bytes written; on a true return the bytes of `[address, address+size)`
equal the buffer and all bytes outside that range are unchanged; when the protection change
fails nothing is written (the memory is the one before the call). -/
theorem WriteMemory_result_and_bytes (s : MemoryScanner) (m : RemoteMemory) (w : WriteOutcome)
    (address : Nat) (buffer : List BYTE) :
    ((WriteMemory s m w address buffer).1 = true ↔
        s.m_processHandle ≠ 0 ∧
        (VirtualProtectEx m address buffer.length PAGE_EXECUTE_READWRITE).isSome = true ∧
        w.success = true ∧ w.bytesWritten = buffer.length) ∧
      ((WriteMemory s m w address buffer).1 = true →
        (∀ k, k < buffer.length →
          (WriteMemory s m w address buffer).2.bytes (address + k) = buffer.getD k 0) ∧
        (∀ a, a < address ∨ address + buffer.length ≤ a →
          (WriteMemory s m w address buffer).2.bytes a = m.bytes a)) ∧
      (VirtualProtectEx m address buffer.length PAGE_EXECUTE_READWRITE = none →
        WriteMemory s m w address buffer = (false, m)) := by
  unfold WriteMemory
  by_cases hopen : s.m_processHandle = 0
  · simp [hopen]
  · rw [if_neg hopen]
    cases hvp : VirtualProtectEx m address buffer.length PAGE_EXECUTE_READWRITE with
    | none => simp [hopen]
    | some r =>
      obtain ⟨m1, oldProtect⟩ := r
      have hb := VirtualProtectEx_bytes hvp
      simp only []
      by_cases hw : (!w.success || decide (w.bytesWritten ≠ buffer.length)) = true
      · rw [if_pos hw]
        simp only [Bool.or_eq_true, Bool.not_eq_true', decide_eq_true_eq] at hw
        simp only [Bool.false_eq_true, false_iff, not_and, Option.isSome_some, true_and,
          false_implies, reduceCtorEq, and_true]
        intro _ h1 h2
        rcases hw with hw | hw
        · rw [h1] at hw; simp at hw
        · exact hw h2
      · rw [if_neg hw]
        simp only [Bool.or_eq_true, Bool.not_eq_true', decide_eq_true_eq, not_or,
          Bool.not_eq_false, not_not] at hw
        refine ⟨by simp [hopen, hw.1, hw.2], fun _ => ⟨?_, ?_⟩, by simp⟩
        · intro k hk
          simp only [restoreProtection_bytes, WriteProcessMemory]
          rw [if_pos ⟨by omega, by rw [hw.2]; simp; omega⟩]
          simp
        · intro a ha
          simp only [restoreProtection_bytes, WriteProcessMemory]
          rw [if_neg (by rw [hw.2]; simp; omega), hb]

/-- The protection after `WriteMemory` on a range of one protection: when every page
of `[address, address+size)` has one and the same protection `p` before the call (and the
range is not empty), the protection change succeeds and the protection of every page after
the call equals its protection before the call, both when the write succeeds and when it
fails. -/
theorem WriteMemory_restores_uniform_protection (s : MemoryScanner) (m : RemoteMemory)
    (w : WriteOutcome) (address : Nat) (buffer : List BYTE) (p : Nat)
    (hopen : s.m_processHandle ≠ 0) (hsize : buffer.length ≠ 0)
    (hu : RangeProtection m address buffer.length p) :
    (VirtualProtectEx m address buffer.length PAGE_EXECUTE_READWRITE).isSome = true ∧
      (WriteMemory s m w address buffer).2.protect = m.protect := by
  have hvp := VirtualProtectEx_of_uniform m address buffer.length p PAGE_EXECUTE_READWRITE
    hsize hu
  refine ⟨by rw [hvp]; rfl, ?_⟩
  unfold WriteMemory
  rw [if_neg hopen, hvp]
  simp only []
  have hu2 : RangeProtection
      (WriteProcessMemory
        { m with protect := fun q =>
            if firstPage address ≤ q ∧ q ≤ lastPage address buffer.length then
              some PAGE_EXECUTE_READWRITE
            else m.protect q } address buffer w)
      address buffer.length PAGE_EXECUTE_READWRITE := by
    intro k hk
    have hle := firstPage_le_lastPage address buffer.length hsize
    have hin : firstPage address ≤ firstPage address + k ∧
        firstPage address + k ≤ lastPage address buffer.length := ⟨by omega, by omega⟩
    simp only [WriteProcessMemory]
    rw [if_pos hin]
  have hfinal : (restoreProtection
      (WriteProcessMemory
        { m with protect := fun q =>
            if firstPage address ≤ q ∧ q ≤ lastPage address buffer.length then
              some PAGE_EXECUTE_READWRITE
            else m.protect q } address buffer w) address buffer.length p).protect =
      m.protect := by
    rw [restoreProtection_of_uniform _ _ _ _ _ hsize hu2]
    funext q
    by_cases hq : firstPage address ≤ q ∧ q ≤ lastPage address buffer.length
    · have hk := hu (q - firstPage address) (by omega)
      have hqeq : firstPage address + (q - firstPage address) = q := by omega
      rw [hqeq] at hk
      rw [if_pos hq, hk]
    · rw [if_neg hq]
      simp [WriteProcessMemory, hq]
  split <;> exact hfinal

/-- C9 (the code departs from the claim on the protection). A write of four bytes at
`0x1FFE` in `twoPageMemory` covers the last two bytes of page 1 (`PAGE_EXECUTE_READ`) and
the first two of page 2 (`PAGE_READONLY`). The initial protection change succeeds and
reports the protection of the first page only; the restoring call gives that one value to
both pages, so page 2 ends as `0x20` instead of `0x02`, both when the write succeeds and
when it fails. -/
theorem WriteMemory_protection_not_restored_across_pages :
    (VirtualProtectEx twoPageMemory 0x1FFE 4 PAGE_EXECUTE_READWRITE).isSome = true ∧
      twoPageMemory.protect 2 = some 0x02 ∧
      (WriteMemory exampleScanner twoPageMemory ⟨true, 4⟩ 0x1FFE [1, 2, 3, 4]).1 = true ∧
      (WriteMemory exampleScanner twoPageMemory ⟨true, 4⟩ 0x1FFE [1, 2, 3, 4]).2.protect 2 =
        some 0x20 ∧
      (WriteMemory exampleScanner twoPageMemory ⟨false, 0⟩ 0x1FFE [1, 2, 3, 4]).1 = false ∧
      (WriteMemory exampleScanner twoPageMemory ⟨false, 0⟩ 0x1FFE [1, 2, 3, 4]).2.protect 2 =
        some 0x20 := by
  decide

/-- An instance of the preceding theorem: a write of four bytes inside page 1 of
`twoPageMemory` leaves the protection of every page as it was. -/
theorem WriteMemory_restores_uniform_protection_witness :
    (exampleScanner.m_processHandle ≠ 0 ∧ ([1, 2, 3, 4] : List BYTE).length ≠ 0 ∧
      RangeProtection twoPageMemory 0x1100 ([1, 2, 3, 4] : List BYTE).length 0x20) ∧
    (VirtualProtectEx twoPageMemory 0x1100 ([1, 2, 3, 4] : List BYTE).length
        PAGE_EXECUTE_READWRITE).isSome = true ∧
      (WriteMemory exampleScanner twoPageMemory ⟨true, 4⟩ 0x1100 [1, 2, 3, 4]).2.protect =
        twoPageMemory.protect := by
  exact ⟨⟨by decide, by decide, by decide⟩,
    WriteMemory_restores_uniform_protection exampleScanner twoPageMemory ⟨true, 4⟩ 0x1100
      [1, 2, 3, 4] 0x20 (by decide) (by decide) (by decide)⟩

/-! ## C10 -/

/-- C10. `Open` opens the process given by the effective id (the argument if non-zero,
otherwise the stored id) after closing any existing handle: if the effective id is 0 it
returns false, closes nothing and leaves the stored id and the handle unchanged; otherwise
it passes the existing handle, if any, to `CloseHandle`, returns true exactly when
`OpenProcess` succeeds on the effective id, holds a handle afterwards if and only if it
returned true, and stores the effective id. -/
theorem Open_effective_id (OpenProcess : Nat → Nat) (s : MemoryScanner) (processId : Nat) :
    ((if processId ≠ 0 then processId else s.m_processId) = 0 →
        Open OpenProcess s processId = (false, s, [])) ∧
      ((if processId ≠ 0 then processId else s.m_processId) ≠ 0 →
        ((Open OpenProcess s processId).1 = true ↔
          OpenProcess (if processId ≠ 0 then processId else s.m_processId) ≠ 0) ∧
        ((Open OpenProcess s processId).2.1.m_processHandle ≠ 0 ↔
          (Open OpenProcess s processId).1 = true) ∧
        (Open OpenProcess s processId).2.1.m_processHandle =
          OpenProcess (if processId ≠ 0 then processId else s.m_processId) ∧
        (Open OpenProcess s processId).2.1.m_processId =
          (if processId ≠ 0 then processId else s.m_processId) ∧
        (Open OpenProcess s processId).2.2 =
          (if s.m_processHandle ≠ 0 then [s.m_processHandle] else [])) := by
  unfold Open Close
  by_cases hp : processId = 0
  · subst hp
    by_cases hid : s.m_processId = 0
    · simp [hid]
    · by_cases hh : s.m_processHandle = 0
      · by_cases ho : OpenProcess s.m_processId = 0 <;> simp [hid, hh, ho]
      · by_cases ho : OpenProcess s.m_processId = 0 <;> simp [hid, hh, ho]
  · by_cases hh : s.m_processHandle = 0
    · by_cases ho : OpenProcess processId = 0 <;> simp [hp, hh, ho]
    · by_cases ho : OpenProcess processId = 0 <;> simp [hp, hh, ho]

/-- Witness of C10: a failed `Open` on a scanner that was open leaves it closed, with the
old handle passed to `CloseHandle`; an `Open` without any id changes nothing. -/
theorem Open_effective_id_witness :
    Open (fun pid => if pid = 7 then 0x44 else 0) { m_processId := 7, m_processHandle := 0x20 } 8
        = (false, { m_processId := 8, m_processHandle := 0 }, [0x20]) ∧
      Open (fun pid => if pid = 7 then 0x44 else 0) { m_processId := 7, m_processHandle := 0x20 } 0
        = (true, { m_processId := 7, m_processHandle := 0x44 }, [0x20]) ∧
      ((if (0 : Nat) ≠ 0 then 0 else (0 : Nat)) = 0 ∧
        Open (fun pid => if pid = 7 then 0x44 else 0)
          { m_processId := 0, m_processHandle := 0 } 0 =
          (false, { m_processId := 0, m_processHandle := 0 }, [])) :=
  ⟨by decide, by decide, by decide,
    (Open_effective_id (fun pid => if pid = 7 then 0x44 else 0)
      { m_processId := 0, m_processHandle := 0 } 0).1 (by decide)⟩

/-! ## C11 -/

theorem PatchValidationFunction_bytes (m : RemoteMemory) (address : Nat) :
    (PatchValidationFunction m address).2.bytes =
      if (PatchValidationFunction m address).1 = true then writeAt m.bytes address patch
      else m.bytes := by
  unfold PatchValidationFunction
  by_cases h0 : address = 0
  · simp [h0]
  · rw [if_neg h0]
    cases hvp : VirtualProtectEx m address patch.length PAGE_EXECUTE_READWRITE with
    | none => simp
    | some r =>
      obtain ⟨m1, oldProtect⟩ := r
      have hb := VirtualProtectEx_bytes hvp
      simp only [if_true, restoreProtection_bytes, memcpy, WriteProcessMemory, hb,
        Nat.min_self]
      rfl

theorem PatchValidationFunction_true_iff (m : RemoteMemory) (address : Nat) :
    (PatchValidationFunction m address).1 = true ↔
      address ≠ 0 ∧
        (VirtualProtectEx m address patch.length PAGE_EXECUTE_READWRITE).isSome = true := by
  unfold PatchValidationFunction
  by_cases h0 : address = 0
  · simp [h0]
  · rw [if_neg h0]
    cases hvp : VirtualProtectEx m address patch.length PAGE_EXECUTE_READWRITE with
    | none => simp
    | some r => simp [h0]

theorem PatchValidationFunction_false (m : RemoteMemory) (address : Nat)
    (h : (PatchValidationFunction m address).1 = false) :
    (PatchValidationFunction m address).2 = m := by
  unfold PatchValidationFunction at h ⊢
  by_cases h0 : address = 0
  · simp [h0]
  · rw [if_neg h0] at h ⊢
    cases hvp : VirtualProtectEx m address patch.length PAGE_EXECUTE_READWRITE with
    | none => rfl
    | some r => rw [hvp] at h; simp at h

theorem PatchValidationFunction_uniform_protection (m : RemoteMemory) (address p : Nat)
    (h0 : address ≠ 0) (hu : RangeProtection m address patch.length p) :
    (PatchValidationFunction m address).1 = true ∧
      (PatchValidationFunction m address).2.protect = m.protect := by
  have hsize : patch.length ≠ 0 := by decide
  have hvp := VirtualProtectEx_of_uniform m address patch.length p PAGE_EXECUTE_READWRITE
    hsize hu
  unfold PatchValidationFunction
  rw [if_neg h0, hvp]
  refine ⟨rfl, ?_⟩
  simp only []
  have hle := firstPage_le_lastPage address patch.length hsize
  have hu2 : RangeProtection
      (memcpy
        { m with protect := fun q =>
            if firstPage address ≤ q ∧ q ≤ lastPage address patch.length then
              some PAGE_EXECUTE_READWRITE
            else m.protect q } address patch)
      address patch.length PAGE_EXECUTE_READWRITE := by
    intro k hk
    have hin : firstPage address ≤ firstPage address + k ∧
        firstPage address + k ≤ lastPage address patch.length := ⟨by omega, by omega⟩
    simp only [memcpy, WriteProcessMemory]
    rw [if_pos hin]
  rw [restoreProtection_of_uniform _ _ _ _ _ hsize hu2]
  funext q
  by_cases hq : firstPage address ≤ q ∧ q ≤ lastPage address patch.length
  · have hk := hu (q - firstPage address) (by omega)
    have hqeq : firstPage address + (q - firstPage address) = q := by omega
    rw [hqeq] at hk
    rw [if_pos hq, hk]
  · rw [if_neg hq]
    simp [memcpy, WriteProcessMemory, hq]

theorem patchCall_bytes (w : BypassWorld) (address : Nat) :
    (patchCall w address).2.memory.bytes =
      applyPatches w.memory.bytes [(address, (patchCall w address).1)] := by
  show (PatchValidationFunction w.memory address).2.bytes = _
  rw [PatchValidationFunction_bytes]
  rfl

theorem workerOutcome_of_calls (bypassType : ValidationBypassType) (g : ValidationAddresses)
    (w w2 : BypassWorld) (success : Bool) (calls : List (Nat × Bool))
    (hcalls : w2.patchCalls = w.patchCalls ++ calls)
    (htargets : calls.map Prod.fst = patchTargets bypassType g)
    (hbytes : w2.memory.bytes = applyPatches w.memory.bytes calls)
    (hsuccess : success = true ↔ isEnumerator bypassType ∧ ∀ c ∈ calls, c.2 = true) :
    WorkerOutcome bypassType g w { w2 with g_BypassActive := false }
      (if success then 0 else 1) := by
  refine ⟨rfl, calls, hcalls, htargets, hbytes, ?_, ?_⟩
  · cases success <;> simp
  · rw [← hsuccess]
    cases success <;> simp

theorem applyBypass_calls (bypassType : ValidationBypassType) (w : BypassWorld) :
    (applyBypass bypassType w).2.findCalls = w.findCalls ∧
      (applyBypass bypassType w).2.g_ValidationAddresses = w.g_ValidationAddresses ∧
      ∃ calls : List (Nat × Bool),
        (applyBypass bypassType w).2.patchCalls = w.patchCalls ++ calls ∧
        calls.map Prod.fst = patchTargets bypassType w.g_ValidationAddresses ∧
        (applyBypass bypassType w).2.memory.bytes = applyPatches w.memory.bytes calls ∧
        ((applyBypass bypassType w).1 = true ↔
          isEnumerator bypassType ∧ ∀ c ∈ calls, c.2 = true) := by
  unfold applyBypass patchTargets isEnumerator
  by_cases h0 : bypassType = BYPASS_ITEM_CHECK
  · simp only [if_pos h0]
    refine ⟨rfl, rfl,
      [(w.g_ValidationAddresses.validateItemOwnership,
          (patchCall w w.g_ValidationAddresses.validateItemOwnership).1),
        (w.g_ValidationAddresses.validateItemProperties,
          (patchCall (patchCall w w.g_ValidationAddresses.validateItemOwnership).2
            w.g_ValidationAddresses.validateItemProperties).1)], ?_, rfl, ?_, ?_⟩
    · simp [patchCall]
    · have hg : (patchCall w w.g_ValidationAddresses.validateItemOwnership).2.g_ValidationAddresses
          = w.g_ValidationAddresses := rfl
      rw [hg, patchCall_bytes, patchCall_bytes]
      rfl
    · have hg : (patchCall w w.g_ValidationAddresses.validateItemOwnership).2.g_ValidationAddresses
          = w.g_ValidationAddresses := rfl
      simp [h0, hg]
  · rw [if_neg h0, if_neg h0]
    by_cases h1 : bypassType = BYPASS_VALUE_RANGE
    · simp only [if_pos h1]
      exact ⟨rfl, rfl, [(_, (patchCall w w.g_ValidationAddresses.validateTransaction).1)],
        rfl, rfl, patchCall_bytes _ _, by simp [h1]⟩
    · rw [if_neg h1, if_neg h1]
      by_cases h2 : bypassType = BYPASS_OWNERSHIP_CHECK
      · simp only [if_pos h2]
        exact ⟨rfl, rfl, [(_, (patchCall w w.g_ValidationAddresses.validateItemOwnership).1)],
          rfl, rfl, patchCall_bytes _ _, by simp [h2]⟩
      · rw [if_neg h2, if_neg h2]
        by_cases h3 : bypassType = BYPASS_ANTI_TELEPORT
        · simp only [if_pos h3]
          exact ⟨rfl, rfl,
            [(_, (patchCall w w.g_ValidationAddresses.validatePlayerPosition).1)],
            rfl, rfl, patchCall_bytes _ _, by simp [h3]⟩
        · rw [if_neg h3, if_neg h3]
          by_cases h4 : bypassType = BYPASS_COMPLETION_CHECK
          · simp only [if_pos h4]
            exact ⟨rfl, rfl,
              [(_, (patchCall w w.g_ValidationAddresses.validateTaskCompletion).1)],
              rfl, rfl, patchCall_bytes _ _, by simp [h4]⟩
          · rw [if_neg h4, if_neg h4]
            exact ⟨rfl, rfl, [], by simp, rfl, rfl, by simp [h0, h1, h2, h3, h4]⟩

theorem finishBypass_outcome (bypassType : ValidationBypassType) (w : BypassWorld) :
    (finishBypass bypassType w).2.findCalls = w.findCalls ∧
      (finishBypass bypassType w).2.g_ValidationAddresses = w.g_ValidationAddresses ∧
      WorkerOutcome bypassType w.g_ValidationAddresses w (finishBypass bypassType w).2
        (finishBypass bypassType w).1 := by
  obtain ⟨h1, h2, calls, h3, h4, h5, h6⟩ := applyBypass_calls bypassType w
  exact ⟨h1, h2, workerOutcome_of_calls bypassType _ w _ _ calls h3 h4 h5 h6⟩

set_option maxRecDepth 1000000 in
theorem holeProcess_scan_faults :
    FindValidationFunctions holeProcess freshWorld.g_ValidationAddresses = none := by
  decide

/-- C11 as stated fails: in `holeProcess` the second page of the module image cannot be
read. With `validateItemOwnership` still 0 the thread calls `FindValidationFunctions`,
whose scan reads `*(unsigned char*)addr` at the first address of that page and faults;
neither call returns, so the thread has no exit code and does not store
`g_BypassActive = false`. -/
theorem ValidationBypassThread_faults_in_scan :
    freshWorld.g_ValidationAddresses.validateItemOwnership = 0 ∧
      FindValidationFunctions holeProcess freshWorld.g_ValidationAddresses = none ∧
      (ValidationBypassThread holeProcess BYPASS_ITEM_CHECK freshWorld).isSome = false ∧
      ¬ ∃ code w1, ValidationBypassThread holeProcess BYPASS_ITEM_CHECK freshWorld =
        some (code, w1) := by
  have hfind := holeProcess_scan_faults
  have hrun : (ValidationBypassThread holeProcess BYPASS_ITEM_CHECK freshWorld).isSome =
      false := by
    unfold ValidationBypassThread
    rw [if_pos (show freshWorld.g_ValidationAddresses.validateItemOwnership = 0 from rfl),
      hfind]
    rfl
  refine ⟨rfl, hfind, hrun, ?_⟩
  rintro ⟨code, w1, h⟩
  rw [h] at hrun
  simp at hrun

/-- C11, amended. `ValidationBypassThread` applies the bypass selected by its type and
reports it in its exit code. It calls `FindValidationFunctions` only when
`validateItemOwnership` is 0. When that call is not made, or is made and succeeds, the
thread returns with the calls of `PatchValidationFunction` of the requested type all made
(two for `BYPASS_ITEM_CHECK`, one for each of the other four types, none for a value that
is no enumerator), with the six bytes of the patch stored at the address of every call
that returned true, and with exit code 0 if and only if the type is an enumerator and
every one of these calls returned true, 1 otherwise. When `FindValidationFunctions` is
made and fails, the thread returns 1 without any patch call and with the memory as it
was. On each of these paths `g_BypassActive` is false when the thread returns. When the
scan of `FindValidationFunctions` reads an address that cannot be read, the thread does
not return. -/
theorem ValidationBypassThread_exit_code (os : LocalProcess)
    (bypassType : ValidationBypassType) (w : BypassWorld) :
    (w.g_ValidationAddresses.validateItemOwnership ≠ 0 →
        ∃ code w1, ValidationBypassThread os bypassType w = some (code, w1) ∧
          w1.findCalls = w.findCalls ∧
          w1.g_ValidationAddresses = w.g_ValidationAddresses ∧
          WorkerOutcome bypassType w.g_ValidationAddresses w w1 code) ∧
      (w.g_ValidationAddresses.validateItemOwnership = 0 →
        ∀ g1, FindValidationFunctions os w.g_ValidationAddresses = some (true, g1) →
          ∃ code w1, ValidationBypassThread os bypassType w = some (code, w1) ∧
            w1.findCalls = w.findCalls + 1 ∧
            w1.g_ValidationAddresses = g1 ∧
            WorkerOutcome bypassType g1 w w1 code) ∧
      (w.g_ValidationAddresses.validateItemOwnership = 0 →
        ∀ g1, FindValidationFunctions os w.g_ValidationAddresses = some (false, g1) →
          ∃ w1, ValidationBypassThread os bypassType w = some (1, w1) ∧
            w1.findCalls = w.findCalls + 1 ∧
            w1.patchCalls = w.patchCalls ∧
            w1.memory.bytes = w.memory.bytes ∧
            w1.g_BypassActive = false) ∧
      (w.g_ValidationAddresses.validateItemOwnership = 0 →
        FindValidationFunctions os w.g_ValidationAddresses = none →
          ValidationBypassThread os bypassType w = none) := by
  refine ⟨?_, ?_, ?_, ?_⟩
  · intro h
    unfold ValidationBypassThread
    rw [if_neg h]
    obtain ⟨h1, h2, h3⟩ := finishBypass_outcome bypassType w
    exact ⟨_, _, rfl, h1, h2, h3⟩
  · intro h g1 hfind
    unfold ValidationBypassThread
    rw [if_pos h, hfind]
    obtain ⟨h1, h2, h3⟩ := finishBypass_outcome bypassType
      { w with g_ValidationAddresses := g1, findCalls := w.findCalls + 1 }
    exact ⟨_, _, rfl, h1, h2, h3⟩
  · intro h g1 hfind
    unfold ValidationBypassThread
    rw [if_pos h, hfind]
    exact ⟨_, rfl, rfl, rfl, rfl, rfl⟩
  · intro h hfind
    unfold ValidationBypassThread
    rw [if_pos h, hfind]

/-- Witness of C11. On `exampleWorld` the type `BYPASS_ITEM_CHECK` makes both calls, of which
the second fails, and exits with 1; the bytes of the patch are at `0x1100` afterwards. The
type `BYPASS_ANTI_TELEPORT` makes one call, which succeeds, and exits with 0; the value 9
makes no call and exits with 1; on `freshWorld` with the module not loaded the thread exits
with 1 after one call of `FindValidationFunctions`. On each path `g_BypassActive` is
false. -/
theorem ValidationBypassThread_exit_code_witness :
    (exampleWorld.g_ValidationAddresses.validateItemOwnership ≠ 0 ∧
      ∃ code w1, ValidationBypassThread noModuleProcess BYPASS_ITEM_CHECK exampleWorld =
          some (code, w1) ∧
        w1.findCalls = exampleWorld.findCalls ∧
        w1.g_ValidationAddresses = exampleWorld.g_ValidationAddresses ∧
        WorkerOutcome BYPASS_ITEM_CHECK exampleWorld.g_ValidationAddresses exampleWorld w1
          code) ∧
      (ValidationBypassThread noModuleProcess BYPASS_ITEM_CHECK exampleWorld).map
          (fun r => (r.1, r.2.patchCalls, r.2.findCalls, r.2.g_BypassActive,
            (List.range 7).map (fun k => r.2.memory.bytes (0x1100 + k)))) =
        some (1, [(0x1100, true), (0x5000, false)], 0, false,
          [0xB8, 0x01, 0x00, 0x00, 0x00, 0xC3, 0x00]) ∧
      (ValidationBypassThread noModuleProcess BYPASS_ANTI_TELEPORT exampleWorld).map
          (fun r => (r.1, r.2.patchCalls, r.2.findCalls, r.2.g_BypassActive,
            (List.range 7).map (fun k => r.2.memory.bytes (0x2100 + k)))) =
        some (0, [(0x2100, true)], 0, false, [0xB8, 0x01, 0x00, 0x00, 0x00, 0xC3, 0x00]) ∧
      (ValidationBypassThread noModuleProcess 9 exampleWorld).map
          (fun r => (r.1, r.2.patchCalls, r.2.findCalls, r.2.g_BypassActive)) =
        some (1, [], 0, false) ∧
      (ValidationBypassThread noModuleProcess BYPASS_ITEM_CHECK freshWorld).map
          (fun r => (r.1, r.2.patchCalls, r.2.findCalls, r.2.g_BypassActive)) =
        some (1, [], 1, false) :=
  ⟨⟨by decide,
      (ValidationBypassThread_exit_code noModuleProcess BYPASS_ITEM_CHECK exampleWorld).1
        (by decide)⟩,
    by decide, by decide, by decide, by decide⟩

/-! ## C12 -/

theorem scanLoop_acc (base : Nat) (buffer pattern mask : List BYTE) :
    ∀ n i results, scanLoop base buffer pattern mask i n results =
      (scanLoop base buffer pattern mask i n []).map (fun more => results ++ more) := by
  intro n
  induction n with
  | zero => intro i results; simp [scanLoop]
  | succ n ih =>
    intro i results
    rw [scanLoop, scanLoop]
    cases matchLoop buffer pattern mask i 0 pattern.length with
    | none => rfl
    | some found =>
      cases found with
      | false => exact ih (i + 1) results
      | true =>
        simp only []
        rw [ih (i + 1) (results ++ _), ih (i + 1) ([] ++ _), Option.map_map]
        congr 1
        funext more
        simp

theorem scanRegions_acc (s : MemoryScanner) (os : RemoteProcess) (pattern mask : List BYTE) :
    ∀ (regions : List MemoryRegion) (results : List ScanResult),
      scanRegions s os pattern mask regions results =
        (scanRegions s os pattern mask regions []).map (fun more => results ++ more) := by
  intro regions
  induction regions with
  | nil => intro results; simp [scanRegions]
  | cons r rest ih =>
    intro results
    rw [scanRegions, scanRegions]
    split
    · exact ih results
    · split
      · exact ih results
      · split
        · rfl
        · cases ReadMemory s os r.start (regionSize r) with
          | none => exact ih results
          | some buffer =>
            simp only []
            unfold scanBuffer
            rw [scanLoop_acc _ _ _ _ _ _ results]
            cases scanLoop r.start buffer pattern mask 0
                (wrap64 ((buffer.length : Int) - (pattern.length : Int)) + 1) [] with
            | none => rfl
            | some found =>
              simp only [Option.map_some']
              rw [ih (results ++ found), ih found, Option.map_map]
              congr 1
              funext more
              simp

theorem scanRegions_cons_eq (s : MemoryScanner) (os : RemoteProcess)
    (pattern mask : List BYTE) (r : MemoryRegion) (rest : List MemoryRegion) :
    scanRegions s os pattern mask (r :: rest) [] =
      concatScans [scanRegions s os pattern mask [r] [],
        scanRegions s os pattern mask rest []] := by
  have hsingle : ∀ results, scanRegions s os pattern mask [] results = some results :=
    fun results => rfl
  rw [scanRegions, scanRegions]
  simp only [hsingle]
  split
  · cases scanRegions s os pattern mask rest [] <;> simp [concatScans]
  · split
    · cases scanRegions s os pattern mask rest [] <;> simp [concatScans]
    · split
      · simp [concatScans]
      · cases ReadMemory s os r.start (regionSize r) with
        | none => cases scanRegions s os pattern mask rest [] <;> simp [concatScans]
        | some buffer =>
          simp only []
          cases scanBuffer r.start buffer pattern mask [] with
          | none => simp [concatScans]
          | some found =>
            simp only []
            rw [scanRegions_acc s os pattern mask rest found]
            cases scanRegions s os pattern mask rest [] <;> simp [concatScans]

theorem concatScans_cons (x : Option (List ScanResult))
    (xs : List (Option (List ScanResult))) :
    concatScans (x :: xs) = concatScans [x, concatScans xs] := by
  cases x with
  | none => simp [concatScans]
  | some a => cases h : concatScans xs <;> simp [concatScans, h]

theorem scanRegions_eq_concatScans (s : MemoryScanner) (os : RemoteProcess)
    (pattern mask : List BYTE) :
    ∀ regions : List MemoryRegion,
      scanRegions s os pattern mask regions [] =
        concatScans (regions.map (fun r => scanRegions s os pattern mask [r] [])) := by
  intro regions
  induction regions with
  | nil => rfl
  | cons r rest ih =>
    rw [scanRegions_cons_eq, List.map_cons, concatScans_cons _ (List.map _ rest), ih]

theorem scanRegions_withRegions (s : MemoryScanner) (os : RemoteProcess)
    (pattern mask : List BYTE) (other : List MemoryRegion) :
    ∀ (regions : List MemoryRegion) (results : List ScanResult),
      scanRegions s (withRegions os other) pattern mask regions results =
        scanRegions s os pattern mask regions results := by
  intro regions
  induction regions with
  | nil => intro results; rfl
  | cons r rest ih =>
    intro results
    rw [scanRegions, scanRegions]
    have hread : ReadMemory s (withRegions os other) r.start (regionSize r) =
        ReadMemory s os r.start (regionSize r) := rfl
    have halloc : (withRegions os other).allocate = os.allocate := rfl
    simp only [ih, hread, halloc]

theorem ScanPattern_withRegions (s : MemoryScanner) (os : RemoteProcess)
    (pattern mask : List BYTE) (regions : List MemoryRegion) :
    ScanPattern s (withRegions os regions) pattern mask =
      if s.m_processHandle = 0 then some []
      else scanRegions s os pattern (effectiveMask pattern mask) regions [] := by
  unfold ScanPattern GetMemoryRegions
  split
  · rfl
  · rw [scanRegions_withRegions]
    rfl

theorem concatScans_map_some (parts : List (List ScanResult)) :
    concatScans (parts.map some) = some parts.flatten := by
  induction parts with
  | nil => rfl
  | cons a rest ih => simp [concatScans, ih]

theorem scanRegions_skipped (s : MemoryScanner) (os : RemoteProcess)
    (pattern mask : List BYTE) (r : MemoryRegion) (h : SkippedRegion s os pattern r)
    (results : List ScanResult) (rest : List MemoryRegion) :
    scanRegions s os pattern mask (r :: rest) results =
      scanRegions s os pattern mask rest results := by
  rw [scanRegions]
  rcases h with h | h | ⟨h1, h2⟩
  · simp [h]
  · simp [h]
  · split
    · rfl
    · split
      · rfl
      · simp only [h1, h2, Bool.not_true, Bool.false_eq_true, if_false]

theorem scanRegions_append (s : MemoryScanner) (os : RemoteProcess)
    (pattern mask : List BYTE) (back : List MemoryRegion) :
    ∀ (front : List MemoryRegion),
      scanRegions s os pattern mask (front ++ back) [] =
        concatScans [scanRegions s os pattern mask front [],
          scanRegions s os pattern mask back []] := by
  intro front
  induction front with
  | nil =>
    show scanRegions s os pattern mask back [] = _
    cases h : scanRegions s os pattern mask back [] <;> simp [concatScans, scanRegions, h]
  | cons r rest ih =>
    rw [List.cons_append, scanRegions_cons_eq, ih, scanRegions_cons_eq s os pattern mask r rest]
    cases scanRegions s os pattern mask [r] [] <;>
      cases scanRegions s os pattern mask rest [] <;>
      cases scanRegions s os pattern mask back [] <;> simp [concatScans]

theorem allocationsSucceed_single (os : RemoteProcess) (pattern : List BYTE)
    (regions : List MemoryRegion) (h : allocationsSucceed os pattern regions = true)
    (s : MemoryScanner) (r : MemoryRegion) (hr : r ∈ regions) :
    allocationsSucceed (withRegions os [r]) pattern
      (GetMemoryRegions s (withRegions os [r])) = true := by
  unfold allocationsSucceed at h
  rw [List.all_eq_true] at h
  have hr1 := h r hr
  unfold GetMemoryRegions
  split
  · rfl
  · show allocationsSucceed (withRegions os [r]) pattern [r] = true
    rw [allocationsSucceed_cons]
    have halloc : (withRegions os [r]).allocate = os.allocate := rfl
    rw [halloc, hr1]
    rfl

theorem step_start_eq_StartValidationBypass (thread : Nat) (bypassType : ValidationBypassType)
    (st : BypassSystem) (hidle : st.startInProgress = false)
    (hinactive : st.controller.g_BypassActive = false) (hthread : thread ≠ 0) :
    (step (Step.startCreate thread bypassType) st).bind (step Step.startStore) =
      some { st with
        controller := (StartValidationBypass thread bypassType st.controller).2
        working := st.working + 1 } := by
  simp [step, StartValidationBypass, hidle, hinactive, hthread]

theorem step_workerReturn_inactive (st st1 : BypassSystem)
    (h : step Step.workerReturn st = some st1) :
    IsValidationBypassActive st1.controller = false := by
  unfold step at h
  simp only [] at h
  split at h
  · simp at h
  · simp only [Option.some.injEq] at h
    rw [← h]
    rfl

/-- C13 (the code departs from the claim). In the interleaving `racingSteps` the worker
returns, with `g_BypassActive = false`, after `StartValidationBypass` has created it and
before that call stores `g_BypassActive = true`. The state reached has no worker at work,
one worker returned and no `Start` call in progress, yet `IsValidationBypassActive()`
returns true, and a later `StartValidationBypass` is rejected as already active. So the
flag is not false in every reachable state of that kind. -/
theorem flag_true_after_worker_returned :
    (∃ st, run racingSteps initialSystem = some st ∧
        st.working = 0 ∧ st.finished = 1 ∧ st.startInProgress = false ∧
        IsValidationBypassActive st.controller = true ∧
        StartValidationBypass 0x88 BYPASS_VALUE_RANGE st.controller =
          (false, st.controller)) ∧
      ¬ (∀ st, Reachable st → st.working = 0 → st.startInProgress = false →
          IsValidationBypassActive st.controller = false) := by
  have hrun : run racingSteps initialSystem =
      some { controller := { g_BypassActive := true, g_BypassThread := 0x77,
                             created := [(0x77, BYPASS_ITEM_CHECK)], terminated := [],
                             closed := [] }
             startInProgress := false, working := 0, finished := 1 } := by
    decide
  refine ⟨⟨_, hrun, rfl, rfl, rfl, rfl, by decide⟩, ?_⟩
  intro hall
  have := hall _ ⟨racingSteps, hrun⟩ rfl rfl
  simp [IsValidationBypassActive] at this

/-- Companion of the preceding theorem: in the order without the race, the call stores the
flag before the worker returns, and the flag is false once the worker has returned. -/
theorem flag_false_when_worker_returns_last :
    ∃ st, run [Step.startCreate 0x77 BYPASS_ITEM_CHECK, Step.startStore, Step.workerReturn]
        initialSystem = some st ∧
      st.working = 0 ∧ st.finished = 1 ∧ st.startInProgress = false ∧
      IsValidationBypassActive st.controller = false := by
  have hrun : run [Step.startCreate 0x77 BYPASS_ITEM_CHECK, Step.startStore,
        Step.workerReturn] initialSystem =
      some { controller := { g_BypassActive := false, g_BypassThread := 0x77,
                             created := [(0x77, BYPASS_ITEM_CHECK)], terminated := [],
                             closed := [] }
             startInProgress := false, working := 0, finished := 1 } := by
    decide
  exact ⟨_, hrun, rfl, rfl, rfl, rfl⟩

end RobloxHubX
